import Mathlib

/-! # input-proxy-receiver: capability negotiation and event forwarding

A shallow embedding of `src/input-proxy-receiver.c`.

* A capability bitfield (`unsigned long x[N]`) is a list of words, least significant
  word first; `sizeof(x)/sizeof(x[0])` is the length of that list.
* The helpers `read_all` / `write_all` of `common.h` are not part of the embedded file.
  Every call of `read_all` is given its outcome (return code and buffer contents) by the
  caller of the embedded function, every call of `write_all` its return code; the embedded
  functions report which calls they issued.
* The system calls `ioctl`, `poll`, `open` and the library call `getopt_long` are treated
  the same way: their returns are given, the calls issued are reported.
-/

set_option linter.unusedVariables false

namespace InputProxy

/-! ## Constants of `linux/input.h` -/

def EV_SYN : Nat := 0x00
def EV_KEY : Nat := 0x01
def EV_REL : Nat := 0x02
def EV_ABS : Nat := 0x03
def EV_MSC : Nat := 0x04
def EV_SW : Nat := 0x05
def EV_LED : Nat := 0x11
def EV_SND : Nat := 0x12
def EV_REP : Nat := 0x14
def EV_FF : Nat := 0x15
def EV_PWR : Nat := 0x16
def EV_FF_STATUS : Nat := 0x17
def EV_CNT : Nat := 0x20
def SYN_MAX : Nat := 0x0f
def INPUT_PROP_CNT : Nat := 0x20
def KEY_CNT : Nat := 0x300
def REL_CNT : Nat := 0x10
def ABS_CNT : Nat := 0x40
def MSC_CNT : Nat := 0x08
def LED_CNT : Nat := 0x10
def SND_CNT : Nat := 0x08
def FF_CNT : Nat := 0x80
def SW_CNT : Nat := 0x10
def BTN_LEFT : Nat := 0x110
def BTN_RIGHT : Nat := 0x111
def BTN_MIDDLE : Nat := 0x112

/-! ## Declarations of `protocol.h` -/

/-- Modelled from the spec: `BITS_PER_LONG` of `protocol.h`, the platform word width in
bits ("rounded up to the platform word width"); an `unsigned long` is 64 bits wide. It is an
unsigned quantity (`sizeof(long)*8`), so an `int` operand combined with it is first
converted to `unsigned long`. -/
def BITS_PER_LONG : Nat := 64

/-- Modelled from the spec: number of words of a bitfield holding `bits` bits, "sized to
its category's maximum code value rounded up to the platform word width". -/
def NLONGS (bits : Nat) : Nat := (bits + BITS_PER_LONG - 1) / BITS_PER_LONG

/-- Modelled from the spec: `INPUT_PROXY_PROTOCOL_VERSION` of `protocol.h`, "the single
supported version constant". -/
def INPUT_PROXY_PROTOCOL_VERSION : Nat := 1

/-- Modelled from the spec: `struct input_proxy_hello` of `protocol.h`,
"{protocol-version, declared-capability-struct-size}", two fixed-width unsigned ints. -/
structure input_proxy_hello where
  version : Nat
  caps_size : Nat
deriving DecidableEq, Repr

/-- Modelled from the spec: `struct input_proxy_device_caps` of `protocol.h`, "one
fixed-width bitfield per category"; the field names are those used by the source. -/
structure input_proxy_device_caps where
  propbit : List Nat
  evbit : List Nat
  keybit : List Nat
  relbit : List Nat
  absbit : List Nat
  mscbit : List Nat
  ledbit : List Nat
  sndbit : List Nat
  ffbit : List Nat
  swbit : List Nat
deriving DecidableEq, Repr

/-- Modelled from the spec: `sizeof(struct input_proxy_device_caps)`, "total size fixed at
compile time": eight bytes for every word of every bitfield. -/
def sizeof_input_proxy_device_caps : Nat :=
  8 * (NLONGS INPUT_PROP_CNT + NLONGS EV_CNT + NLONGS KEY_CNT + NLONGS REL_CNT
    + NLONGS ABS_CNT + NLONGS MSC_CNT + NLONGS LED_CNT + NLONGS SND_CNT + NLONGS FF_CNT
    + NLONGS SW_CNT)

/-- The shape the C type gives a capability set: every bitfield has its declared number of
words. -/
def caps_shape (c : input_proxy_device_caps) : Prop :=
  c.propbit.length = NLONGS INPUT_PROP_CNT ∧ c.evbit.length = NLONGS EV_CNT ∧
  c.keybit.length = NLONGS KEY_CNT ∧ c.relbit.length = NLONGS REL_CNT ∧
  c.absbit.length = NLONGS ABS_CNT ∧ c.mscbit.length = NLONGS MSC_CNT ∧
  c.ledbit.length = NLONGS LED_CNT ∧ c.sndbit.length = NLONGS SND_CNT ∧
  c.ffbit.length = NLONGS FF_CNT ∧ c.swbit.length = NLONGS SW_CNT

instance (c : input_proxy_device_caps) : Decidable (caps_shape c) := by
  unfold caps_shape; infer_instance

/-! ## Types of `linux/input.h` and of the source -/

/-- The `struct timeval` of an input event. -/
structure timeval where
  tv_sec : Int
  tv_usec : Int
deriving DecidableEq, Repr

/-- The `struct input_event`: `type` and `code` are `__u16`, `value` is `__s32`. -/
structure input_event where
  time : timeval
  type : Nat
  code : Nat
  value : Int
deriving DecidableEq, Repr

/-- The values the C type of an input event admits for `type`, `code` and `value`. -/
def input_event_in_range (e : input_event) : Prop :=
  e.type < 65536 ∧ e.code < 65536 ∧ -2147483648 ≤ e.value ∧ e.value < 2147483648

instance (e : input_event) : Decidable (input_event_in_range e) := by
  unfold input_event_in_range; infer_instance

/-- The `struct options` of the source. -/
structure options where
  name : Option String
  vendor : Int
  product : Int
  caps : input_proxy_device_caps
deriving DecidableEq, Repr

/-- Outcome of one call of `read_all`: its return code and what it left in the buffer. -/
structure read_all_result (α : Type) where
  rc : Int
  buf : α

/-! ## Bitset utilities -/

/-- The loop of `long_and`: `dst[i] &= src[i]` for every `i < longs_count`. -/
def long_and (dst src : List Nat) (longs_count : Nat) : List Nat :=
  (List.range longs_count).foldl (fun d i => d.set i (d.getD i 0 &&& src.getD i 0)) dst

/-- The macro `LONG_AND(dst, src)`. -/
def LONG_AND (dst src : List Nat) : List Nat :=
  long_and dst src dst.length

/-- The function `long_test_bit`; `bit` is a C `int`, converted to `unsigned long` where it
meets `BITS_PER_LONG`. -/
def long_test_bit (bitfield : List Nat) (bit : Int) (bitfield_size : Nat) : Int :=
  let ubit : Nat := (bit % 18446744073709551616).toNat
  if ubit / BITS_PER_LONG ≥ bitfield_size then 0
  else if bitfield.getD (ubit / BITS_PER_LONG) 0 &&& (1 <<< (ubit &&& (BITS_PER_LONG - 1))) ≠ 0
    then 1 else 0

/-- The macro `LONG_TEST_BIT(bitfield, bit)`. -/
def LONG_TEST_BIT (bitfield : List Nat) (bit : Int) : Int :=
  long_test_bit bitfield bit bitfield.length

/-- The function `long_set_bit`. -/
def long_set_bit (bitfield : List Nat) (bit : Int) (bitfield_size : Nat) : List Nat :=
  let ubit : Nat := (bit % 18446744073709551616).toNat
  if ubit / BITS_PER_LONG ≥ bitfield_size then bitfield
  else bitfield.set (ubit / BITS_PER_LONG)
    (bitfield.getD (ubit / BITS_PER_LONG) 0 ||| (1 <<< (ubit &&& (BITS_PER_LONG - 1))))

/-- The macro `LONG_SET_BIT(bitfield, bit)`. -/
def LONG_SET_BIT (bitfield : List Nat) (bit : Int) : List Nat :=
  long_set_bit bitfield bit bitfield.length

/-- The call `memset(field, 0, sizeof(field))`. -/
def memset_zero (field : List Nat) : List Nat :=
  List.replicate field.length 0

/-! ## Capability negotiation -/

/-- The macro `APPLY_BITS(_evflag, _field)` of `receive_and_validate_caps`, for the already
narrowed `evbit`. -/
def APPLY_BITS (evbit : List Nat) (evflag : Nat) (field untrusted_field : List Nat) :
    List Nat :=
  if LONG_TEST_BIT evbit evflag ≠ 0 then LONG_AND field untrusted_field
  else memset_zero field

/-- Lines 89-105 of `receive_and_validate_caps`: `opt->caps` after it has been narrowed, in
place, by `untrusted_caps`. -/
def narrow_caps (caps untrusted_caps : input_proxy_device_caps) : input_proxy_device_caps :=
  let propbit := LONG_AND caps.propbit untrusted_caps.propbit
  let evbit := LONG_AND caps.evbit untrusted_caps.evbit
  let keybit := APPLY_BITS evbit EV_KEY caps.keybit untrusted_caps.keybit
  let relbit := APPLY_BITS evbit EV_REL caps.relbit untrusted_caps.relbit
  let absbit := APPLY_BITS evbit EV_ABS caps.absbit untrusted_caps.absbit
  let mscbit := APPLY_BITS evbit EV_MSC caps.mscbit untrusted_caps.mscbit
  let ledbit := APPLY_BITS evbit EV_LED caps.ledbit untrusted_caps.ledbit
  let sndbit := APPLY_BITS evbit EV_SND caps.sndbit untrusted_caps.sndbit
  let ffbit := APPLY_BITS evbit EV_FF caps.ffbit untrusted_caps.ffbit
  let swbit := APPLY_BITS evbit EV_SW caps.swbit untrusted_caps.swbit
  { propbit := propbit, evbit := evbit, keybit := keybit, relbit := relbit,
    absbit := absbit, mscbit := mscbit, ledbit := ledbit, sndbit := sndbit,
    ffbit := ffbit, swbit := swbit }

/-- What `receive_and_validate_caps` returns and leaves behind: the return value, the
options after the call, and the sizes of the `read_all(0, ...)` calls it issued, in order. -/
structure recv_result where
  ret : Int
  opt : options
  reads : List Nat
deriving DecidableEq, Repr

/-- The size of `struct input_proxy_hello`: two 32-bit unsigned ints. -/
def sizeof_input_proxy_hello : Nat := 8

/-- The function `receive_and_validate_caps`. `rd_hello` is the outcome of the first
`read_all` call and `rd_caps` that of the second one, consulted only where the source
issues the call. -/
def receive_and_validate_caps (opt : options)
    (rd_hello : read_all_result input_proxy_hello)
    (rd_caps : read_all_result input_proxy_device_caps) : recv_result :=
  let untrusted_hello := rd_hello.buf
  if rd_hello.rc = 0 then ⟨0, opt, [sizeof_input_proxy_hello]⟩
  else if rd_hello.rc = -1 then ⟨-1, opt, [sizeof_input_proxy_hello]⟩
  else if untrusted_hello.version ≠ INPUT_PROXY_PROTOCOL_VERSION then
    ⟨-1, opt, [sizeof_input_proxy_hello]⟩
  else if untrusted_hello.caps_size ≠ sizeof_input_proxy_device_caps then
    ⟨-1, opt, [sizeof_input_proxy_hello]⟩
  else
    let untrusted_caps := rd_caps.buf
    let reads := [sizeof_input_proxy_hello, sizeof_input_proxy_device_caps]
    if rd_caps.rc = 0 then ⟨0, opt, reads⟩
    else if rd_caps.rc = -1 then ⟨-1, opt, reads⟩
    else ⟨1, { opt with caps := narrow_caps opt.caps untrusted_caps }, reads⟩

/-! ## Event forwarding -/

/-- What `validate_and_forward_event` returns and the `write_all` calls it issued: the
descriptor written to and the event passed. -/
structure fwd_result where
  ret : Int
  written : List (Int × input_event)
deriving DecidableEq, Repr

/-- The tail of `validate_and_forward_event`: `rc = write_all(dst, &ev, sizeof(ev))`, whose
return code `wrc` is returned. -/
def write_event (dst : Int) (ev : input_event) (wrc : Int) : fwd_result :=
  ⟨wrc, [(dst, ev)]⟩

/-- The function `validate_and_forward_event`. `rd` is the outcome of `read_all(src, ...)`
and `wrc` the return code of `write_all(dst, ...)`, should the source call it. -/
def validate_and_forward_event (opt : options) (src dst : Int)
    (rd : read_all_result input_event) (wrc : Int) : fwd_result :=
  let untrusted_event := rd.buf
  let ev : input_event := { time := ⟨0, 0⟩, type := 0, code := 0, value := 0 }
  if rd.rc = 0 then ⟨0, []⟩
  else if rd.rc = -1 then ⟨-1, []⟩
  else if LONG_TEST_BIT opt.caps.evbit untrusted_event.type = 0 then ⟨1, []⟩
  else
    let ev := { ev with type := untrusted_event.type }
    if ev.type = EV_SYN then
      if untrusted_event.code > SYN_MAX then ⟨-1, []⟩
      else write_event dst { ev with code := untrusted_event.code, value := 0 } wrc
    else if ev.type = EV_KEY then
      if LONG_TEST_BIT opt.caps.keybit untrusted_event.code = 0 then ⟨1, []⟩
      else write_event dst
        { ev with code := untrusted_event.code, value := untrusted_event.value } wrc
    else if ev.type = EV_REL then
      if LONG_TEST_BIT opt.caps.relbit untrusted_event.code = 0 then ⟨1, []⟩
      else write_event dst
        { ev with code := untrusted_event.code, value := untrusted_event.value } wrc
    else if ev.type = EV_ABS then
      if LONG_TEST_BIT opt.caps.absbit untrusted_event.code = 0 then ⟨1, []⟩
      else write_event dst
        { ev with code := untrusted_event.code, value := untrusted_event.value } wrc
    else if ev.type = EV_MSC then
      if LONG_TEST_BIT opt.caps.mscbit untrusted_event.code = 0 then ⟨1, []⟩
      else write_event dst
        { ev with code := untrusted_event.code, value := untrusted_event.value } wrc
    else if ev.type = EV_SW then
      if LONG_TEST_BIT opt.caps.swbit untrusted_event.code = 0 then ⟨1, []⟩
      else write_event dst
        { ev with code := untrusted_event.code, value := untrusted_event.value } wrc
    else if ev.type = EV_LED then
      if LONG_TEST_BIT opt.caps.ledbit untrusted_event.code = 0 then ⟨1, []⟩
      else write_event dst
        { ev with code := untrusted_event.code, value := untrusted_event.value } wrc
    else if ev.type = EV_SND then
      if LONG_TEST_BIT opt.caps.sndbit untrusted_event.code = 0 then ⟨1, []⟩
      else write_event dst
        { ev with code := untrusted_event.code, value := untrusted_event.value } wrc
    else ⟨-1, []⟩

/-! ## Notions the specification speaks of -/

/-- Bit `k` of a bitfield is set: bit `k % 64` of word `k / 64`, a word past the end
counting as zero. -/
def bit_is_set (bitfield : List Nat) (k : Nat) : Bool :=
  (bitfield.getD (k / 64) 0).testBit (k % 64)

/-- Bitwise inclusion of bitfields: every bit set in `a` is set in `b`. -/
def bits_subset (a b : List Nat) : Prop :=
  ∀ k : Nat, bit_is_set a k = true → bit_is_set b k = true

/-- Bitwise inclusion of capability sets, bitfield by bitfield. -/
def caps_subset (r p : input_proxy_device_caps) : Prop :=
  bits_subset r.propbit p.propbit ∧ bits_subset r.evbit p.evbit ∧
  bits_subset r.keybit p.keybit ∧ bits_subset r.relbit p.relbit ∧
  bits_subset r.absbit p.absbit ∧ bits_subset r.mscbit p.mscbit ∧
  bits_subset r.ledbit p.ledbit ∧ bits_subset r.sndbit p.sndbit ∧
  bits_subset r.ffbit p.ffbit ∧ bits_subset r.swbit p.swbit

/-- The bitfield of the category an event type enables; empty for a type without one. -/
def category_bitfield (c : input_proxy_device_caps) (type : Nat) : List Nat :=
  if type = EV_KEY then c.keybit
  else if type = EV_REL then c.relbit
  else if type = EV_ABS then c.absbit
  else if type = EV_MSC then c.mscbit
  else if type = EV_SW then c.swbit
  else if type = EV_LED then c.ledbit
  else if type = EV_SND then c.sndbit
  else if type = EV_FF then c.ffbit
  else []

/-- The `and` of the specification: bitwise AND of two same-shaped bitfields. -/
def bitfield_and (a b : List Nat) : List Nat :=
  List.zipWith (fun x y => x &&& y) a b

/-- The all-zero bitfield of the width of `a`. -/
def bitfield_zero (a : List Nat) : List Nat :=
  a.map (fun _ => 0)

/-- Steps 3 and 4 of the narrowing algorithm of the specification, for one category:
`policy AND declared` if the enabling bit is set in the narrowed event types, all-zero
otherwise. -/
def narrow_category_spec (event_types : List Nat) (enabling : Nat)
    (policy declared : List Nat) : List Nat :=
  if bit_is_set event_types enabling = true then bitfield_and policy declared
  else bitfield_zero policy

/-- The narrowing algorithm as the specification words it (steps 1 to 4). -/
def narrow_spec (policy declared : input_proxy_device_caps) : input_proxy_device_caps :=
  let event_types := bitfield_and policy.evbit declared.evbit
  { propbit := bitfield_and policy.propbit declared.propbit,
    evbit := event_types,
    keybit := narrow_category_spec event_types EV_KEY policy.keybit declared.keybit,
    relbit := narrow_category_spec event_types EV_REL policy.relbit declared.relbit,
    absbit := narrow_category_spec event_types EV_ABS policy.absbit declared.absbit,
    mscbit := narrow_category_spec event_types EV_MSC policy.mscbit declared.mscbit,
    ledbit := narrow_category_spec event_types EV_LED policy.ledbit declared.ledbit,
    sndbit := narrow_category_spec event_types EV_SND policy.sndbit declared.sndbit,
    ffbit := narrow_category_spec event_types EV_FF policy.ffbit declared.ffbit,
    swbit := narrow_category_spec event_types EV_SW policy.swbit declared.swbit }

/-- Every word of a bitfield is zero. -/
def all_zero (a : List Nat) : Prop :=
  ∀ w ∈ a, w = 0

/-- Category consistency of a capability set: a category whose enabling bit is unset in
`evbit` has an all-zero bitfield, for each of the eight categories. -/
def category_consistent (c : input_proxy_device_caps) : Prop :=
  (bit_is_set c.evbit EV_KEY = false → all_zero c.keybit) ∧
  (bit_is_set c.evbit EV_REL = false → all_zero c.relbit) ∧
  (bit_is_set c.evbit EV_ABS = false → all_zero c.absbit) ∧
  (bit_is_set c.evbit EV_MSC = false → all_zero c.mscbit) ∧
  (bit_is_set c.evbit EV_LED = false → all_zero c.ledbit) ∧
  (bit_is_set c.evbit EV_SND = false → all_zero c.sndbit) ∧
  (bit_is_set c.evbit EV_FF = false → all_zero c.ffbit) ∧
  (bit_is_set c.evbit EV_SW = false → all_zero c.swbit)

/-- The event `validate_and_forward_event` builds from an accepted event: a zero
timestamp and the given type, code and value. -/
def fresh_event (type code : Nat) (value : Int) : input_event :=
  { time := ⟨0, 0⟩, type := type, code := code, value := value }

/-- A capability set with no bit set, of the declared shape. -/
def caps_zero : input_proxy_device_caps :=
  { propbit := List.replicate (NLONGS INPUT_PROP_CNT) 0,
    evbit := List.replicate (NLONGS EV_CNT) 0,
    keybit := List.replicate (NLONGS KEY_CNT) 0,
    relbit := List.replicate (NLONGS REL_CNT) 0,
    absbit := List.replicate (NLONGS ABS_CNT) 0,
    mscbit := List.replicate (NLONGS MSC_CNT) 0,
    ledbit := List.replicate (NLONGS LED_CNT) 0,
    sndbit := List.replicate (NLONGS SND_CNT) 0,
    ffbit := List.replicate (NLONGS FF_CNT) 0,
    swbit := List.replicate (NLONGS SW_CNT) 0 }

/-- A capability set with every bit of every word set, of the declared shape. -/
def caps_all_ones : input_proxy_device_caps :=
  { propbit := List.replicate (NLONGS INPUT_PROP_CNT) 18446744073709551615,
    evbit := List.replicate (NLONGS EV_CNT) 18446744073709551615,
    keybit := List.replicate (NLONGS KEY_CNT) 18446744073709551615,
    relbit := List.replicate (NLONGS REL_CNT) 18446744073709551615,
    absbit := List.replicate (NLONGS ABS_CNT) 18446744073709551615,
    mscbit := List.replicate (NLONGS MSC_CNT) 18446744073709551615,
    ledbit := List.replicate (NLONGS LED_CNT) 18446744073709551615,
    sndbit := List.replicate (NLONGS SND_CNT) 18446744073709551615,
    ffbit := List.replicate (NLONGS FF_CNT) 18446744073709551615,
    swbit := List.replicate (NLONGS SW_CNT) 18446744073709551615 }

/-- The capability set {EV_KEY enabled, keybit = {BTN_LEFT}}. -/
def caps_key_btn_left : input_proxy_device_caps :=
  { caps_zero with
    evbit := LONG_SET_BIT caps_zero.evbit EV_KEY,
    keybit := LONG_SET_BIT caps_zero.keybit BTN_LEFT }

/-- Options holding a given capability set, with the identity fields `parse_options`
starts from. -/
def options_of (c : input_proxy_device_caps) : options :=
  { name := none, vendor := 0xffff, product := 0xffff, caps := c }

/-- A valid Hello message. -/
def hello_ok : input_proxy_hello :=
  { version := INPUT_PROXY_PROTOCOL_VERSION, caps_size := sizeof_input_proxy_device_caps }

/-! ## Virtual device registration -/

/-- The requests of `linux/uinput.h` the source passes to `ioctl`. -/
inductive ioctl_request
  | UI_SET_EVBIT
  | UI_SET_KEYBIT
  | UI_SET_RELBIT
  | UI_SET_ABSBIT
  | UI_SET_MSCBIT
  | UI_SET_LEDBIT
  | UI_SET_SNDBIT
  | UI_SET_FFBIT
  | UI_SET_SWBIT
  | UI_DEV_CREATE
deriving DecidableEq, Repr

/-- The constant `UINPUT_MAX_NAME_SIZE` of `linux/uinput.h`. -/
def UINPUT_MAX_NAME_SIZE : Nat := 80

/-- The constant `BUS_USB` of `linux/input.h`. -/
def BUS_USB : Nat := 0x03

/-- The fields of `struct uinput_user_dev` the source fills; `vendor`, `product` and
`version` are `__u16`. -/
structure uinput_user_dev where
  name : List Char
  bustype : Nat
  vendor : Nat
  product : Nat
  version : Nat
deriving DecidableEq, Repr

/-- One call `register_device` issues on the uinput descriptor: an `ioctl` with its request
and argument, the `write_all` of the device descriptor, or `close`. -/
inductive uinput_call
  | ioctl (request : ioctl_request) (arg : Nat)
  | write_all (dev : uinput_user_dev)
  | close
deriving DecidableEq, Repr

/-- What `send_bits` and `register_device` return, and the calls they issued, in order. -/
structure reg_result where
  ret : Int
  calls : List uinput_call
deriving DecidableEq, Repr

/-- The loop of `send_bits` from index `i` on, with `remaining` iterations left.
`ioctl_rc request arg` is what `ioctl(fd, request, arg)` returns. -/
def send_bits_loop (ioctl_rc : ioctl_request → Nat → Int) (ioctl_num : ioctl_request)
    (bits : List Nat) : Nat → Nat → reg_result
  | _, 0 => ⟨0, []⟩
  | i, remaining + 1 =>
    if bits.getD (i / BITS_PER_LONG) 0 &&& (1 <<< (i &&& (BITS_PER_LONG - 1))) ≠ 0 then
      if ioctl_rc ioctl_num i = -1 then ⟨-1, [uinput_call.ioctl ioctl_num i]⟩
      else
        let r := send_bits_loop ioctl_rc ioctl_num bits (i + 1) remaining
        ⟨r.ret, uinput_call.ioctl ioctl_num i :: r.calls⟩
    else send_bits_loop ioctl_rc ioctl_num bits (i + 1) remaining

/-- The function `send_bits`. -/
def send_bits (fd : Int) (ioctl_rc : ioctl_request → Nat → Int) (ioctl_num : ioctl_request)
    (bits : List Nat) (bits_count : Nat) : reg_result :=
  send_bits_loop ioctl_rc ioctl_num bits 0 bits_count

/-- One line `if (!rc && enabled) rc = send_bits(...)` of `register_device`. -/
def register_step (fd : Int) (ioctl_rc : ioctl_request → Nat → Int) (st : reg_result)
    (enabled : Bool) (ioctl_num : ioctl_request) (bits : List Nat) (bits_count : Nat) :
    reg_result :=
  if st.ret = 0 ∧ enabled = true then
    let r := send_bits fd ioctl_rc ioctl_num bits bits_count
    ⟨r.ret, st.calls ++ r.calls⟩
  else st

/-- The device descriptor `register_device` fills in: the name cut to
`UINPUT_MAX_NAME_SIZE`, the fixed bus type, the configured ids (stored as `__u16`) and
version 1. -/
def device_descriptor (opt : options) : uinput_user_dev :=
  { name := match opt.name with
      | some n => n.toList.take UINPUT_MAX_NAME_SIZE
      | none => [],
    bustype := BUS_USB,
    vendor := (opt.vendor % 65536).toNat,
    product := (opt.product % 65536).toNat,
    version := 1 }

/-- The nine guarded `send_bits` lines of `register_device` (lines 129-146). -/
def register_bits (opt : options) (fd : Int) (ioctl_rc : ioctl_request → Nat → Int) :
    reg_result :=
  let st : reg_result := ⟨0, []⟩
  let st := register_step fd ioctl_rc st true
    ioctl_request.UI_SET_EVBIT opt.caps.evbit EV_CNT
  let st := register_step fd ioctl_rc st (LONG_TEST_BIT opt.caps.evbit EV_KEY != 0)
    ioctl_request.UI_SET_KEYBIT opt.caps.keybit KEY_CNT
  let st := register_step fd ioctl_rc st (LONG_TEST_BIT opt.caps.evbit EV_REL != 0)
    ioctl_request.UI_SET_RELBIT opt.caps.relbit REL_CNT
  let st := register_step fd ioctl_rc st (LONG_TEST_BIT opt.caps.evbit EV_ABS != 0)
    ioctl_request.UI_SET_ABSBIT opt.caps.absbit ABS_CNT
  let st := register_step fd ioctl_rc st (LONG_TEST_BIT opt.caps.evbit EV_MSC != 0)
    ioctl_request.UI_SET_MSCBIT opt.caps.mscbit MSC_CNT
  let st := register_step fd ioctl_rc st (LONG_TEST_BIT opt.caps.evbit EV_LED != 0)
    ioctl_request.UI_SET_LEDBIT opt.caps.ledbit LED_CNT
  let st := register_step fd ioctl_rc st (LONG_TEST_BIT opt.caps.evbit EV_SND != 0)
    ioctl_request.UI_SET_SNDBIT opt.caps.sndbit SND_CNT
  let st := register_step fd ioctl_rc st (LONG_TEST_BIT opt.caps.evbit EV_FF != 0)
    ioctl_request.UI_SET_FFBIT opt.caps.ffbit FF_CNT
  register_step fd ioctl_rc st (LONG_TEST_BIT opt.caps.evbit EV_SW != 0)
    ioctl_request.UI_SET_SWBIT opt.caps.swbit SW_CNT

/-- The function `register_device`. `ioctl_rc request arg` is what `ioctl(fd, request, arg)`
returns and `dev_wrc` what the `write_all` of the descriptor returns. -/
def register_device (opt : options) (fd : Int) (ioctl_rc : ioctl_request → Nat → Int)
    (dev_wrc : Int) : reg_result :=
  let st := register_bits opt fd ioctl_rc
  if st.ret = -1 then ⟨-1, st.calls ++ [uinput_call.close]⟩
  else
    let uinput_dev := device_descriptor opt
    if dev_wrc = -1 then ⟨-1, st.calls ++ [uinput_call.write_all uinput_dev]⟩
    else if ioctl_rc ioctl_request.UI_DEV_CREATE 0 = -1 then
      ⟨-1, st.calls ++ [uinput_call.write_all uinput_dev,
        uinput_call.ioctl ioctl_request.UI_DEV_CREATE 0]⟩
    else
      ⟨0, st.calls ++ [uinput_call.write_all uinput_dev,
        uinput_call.ioctl ioctl_request.UI_DEV_CREATE 0]⟩

/-! ## The forwarding loop -/

/-- What one pass of the loop of `process_events` meets: the return value of `poll`, the
`revents` of both descriptors, and, for each direction, the outcome of `read_all` and the
return code of `write_all`, consulted only where the source issues the call. -/
structure poll_round where
  rc : Int
  revents0 : Int
  revents1 : Int
  rd0 : read_all_result input_event
  wrc0 : Int
  rd1 : read_all_result input_event
  wrc1 : Int

/-- One call of `validate_and_forward_event` issued by `process_events`. -/
structure service where
  src : Int
  dst : Int
  result : fwd_result
deriving DecidableEq, Repr

/-- What `process_events` returns (`none` while it is still waiting in `poll` when the
given rounds are used up), and, for every return of `poll`, the calls of
`validate_and_forward_event` issued after it. -/
structure proc_result where
  ret : Option Int
  rounds : List (List service)
deriving DecidableEq, Repr

/-- The function `process_events`, run against the given readiness rounds. -/
def process_events (opt : options) (fd : Int) : List poll_round → proc_result
  | [] => ⟨none, []⟩
  | r :: rest =>
    if r.rc > 0 then
      let s0 : service := ⟨0, fd, validate_and_forward_event opt 0 fd r.rd0 r.wrc0⟩
      let s1 : service := ⟨fd, 1, validate_and_forward_event opt fd 1 r.rd1 r.wrc1⟩
      let p := process_events opt fd rest
      if r.revents0 ≠ 0 then
        if s0.result.ret ≤ 0 then ⟨some s0.result.ret, [[s0]]⟩
        else if r.revents1 ≠ 0 then
          if s1.result.ret ≤ 0 then ⟨some s1.result.ret, [[s0, s1]]⟩
          else ⟨p.ret, [s0, s1] :: p.rounds⟩
        else ⟨p.ret, [s0] :: p.rounds⟩
      else if r.revents1 ≠ 0 then
        if s1.result.ret ≤ 0 then ⟨some s1.result.ret, [[s1]]⟩
        else ⟨p.ret, [s1] :: p.rounds⟩
      else ⟨p.ret, [] :: p.rounds⟩
    else if r.rc = -1 then ⟨some (-1), [[]]⟩
    else ⟨some 0, [[]]⟩

/-! ## Options and `main` -/

/-- The constant `OPT_VENDOR`. -/
def OPT_VENDOR : Int := 128

/-- The constant `OPT_PRODUCT`. -/
def OPT_PRODUCT : Int := 129

/-- The value `getopt_long` returns for a short option character. -/
def option_char (c : Char) : Int := c.toNat

/-- One return of `getopt_long` other than the final -1: the value returned, `optarg`, and
what `strtoul(optarg, NULL, 16)` gives. -/
structure getopt_result where
  o : Int
  optarg : Option String
  optarg_hex : Nat
deriving DecidableEq, Repr

/-- What `parse_options` returns and the options it leaves behind. -/
structure parse_result where
  ret : Int
  opt : options
deriving DecidableEq, Repr

/-- The call `memset(field, 0xff, sizeof(field))`. -/
def memset_ff (field : List Nat) : List Nat :=
  List.replicate field.length 18446744073709551615

/-- An `unsigned long` stored into an `int`. -/
def ulong_to_int (n : Nat) : Int :=
  ((n : Int) + 2147483648) % 4294967296 - 2147483648

/-- The `while` loop of `parse_options` over the successive returns of `getopt_long`. -/
def parse_options_loop (opt : options) : List getopt_result → parse_result
  | [] => ⟨0, opt⟩
  | g :: rest =>
    if g.o = option_char 'm' then
      let evbit := LONG_SET_BIT opt.caps.evbit EV_REL
      let evbit := LONG_SET_BIT evbit EV_KEY
      let relbit := memset_ff opt.caps.relbit
      let keybit := LONG_SET_BIT opt.caps.keybit BTN_LEFT
      let keybit := LONG_SET_BIT keybit BTN_RIGHT
      let keybit := LONG_SET_BIT keybit BTN_MIDDLE
      parse_options_loop
        { opt with caps := { opt.caps with evbit := evbit, relbit := relbit,
                                           keybit := keybit } } rest
    else if g.o = option_char 'k' then
      let evbit := LONG_SET_BIT opt.caps.evbit EV_KEY
      let evbit := LONG_SET_BIT evbit EV_LED
      let keybit := memset_ff opt.caps.keybit
      let ledbit := memset_ff opt.caps.ledbit
      parse_options_loop
        { opt with caps := { opt.caps with evbit := evbit, keybit := keybit,
                                           ledbit := ledbit } } rest
    else if g.o = option_char 't' then
      let evbit := LONG_SET_BIT opt.caps.evbit EV_ABS
      parse_options_loop { opt with caps := { opt.caps with evbit := evbit } } rest
    else if g.o = option_char 'n' then
      parse_options_loop { opt with name := g.optarg } rest
    else if g.o = OPT_VENDOR then
      parse_options_loop { opt with vendor := ulong_to_int g.optarg_hex } rest
    else if g.o = OPT_PRODUCT then
      parse_options_loop { opt with product := ulong_to_int g.optarg_hex } rest
    else ⟨-1, opt⟩

/-- The function `parse_options`; `args` are the successive returns of `getopt_long`. -/
def parse_options (args : List getopt_result) : parse_result :=
  let opt : options := { name := none, vendor := 0xffff, product := 0xffff,
                         caps := caps_zero }
  let opt := { opt with caps := { opt.caps with evbit := LONG_SET_BIT opt.caps.evbit EV_SYN } }
  parse_options_loop opt args

/-- The function `main`: its exit status, `none` while `process_events` is still waiting
when the given rounds are used up. `open_fd` is what `open("/dev/uinput", O_RDWR)`
returns. -/
def main (args : List getopt_result) (rd_hello : read_all_result input_proxy_hello)
    (rd_caps : read_all_result input_proxy_device_caps) (open_fd : Int)
    (ioctl_rc : ioctl_request → Nat → Int) (dev_wrc : Int) (rounds : List poll_round) :
    Option Int :=
  let p := parse_options args
  if p.ret = -1 then some 1
  else
    let r := receive_and_validate_caps p.opt rd_hello rd_caps
    if r.ret ≤ 0 then some (if r.ret = -1 then 1 else 0)
    else if open_fd = -1 then some 1
    else if (register_device r.opt open_fd ioctl_rc dev_wrc).ret = -1 then some 1
    else
      match (process_events r.opt open_fd rounds).ret with
      | none => none
      | some rc => if rc = -1 then some 1 else some 0

/-! ## Further notions the specification speaks of -/

/-- Fate-sharing of a sequence of services: a service that returned 0 or -1 is the last
one, and its return value is what the loop returned. -/
def fate_shared (l : List service) (ret : Option Int) : Prop :=
  ∀ pre s post, l = pre ++ s :: post → s.result.ret ≤ 0 →
    post = [] ∧ ret = some s.result.ret

/-- The registration call the specification expects for bit `i` of a category: the request
is one of the nine registration requests, the category is enabled in `evbit` (the event
types themselves always are), `i` is below the category's count and bit `i` is set. -/
def registration_expected (c : input_proxy_device_caps) (request : ioctl_request)
    (i : Nat) : Bool :=
  match request with
  | ioctl_request.UI_SET_EVBIT => decide (i < EV_CNT) && bit_is_set c.evbit i
  | ioctl_request.UI_SET_KEYBIT =>
    bit_is_set c.evbit EV_KEY && (decide (i < KEY_CNT) && bit_is_set c.keybit i)
  | ioctl_request.UI_SET_RELBIT =>
    bit_is_set c.evbit EV_REL && (decide (i < REL_CNT) && bit_is_set c.relbit i)
  | ioctl_request.UI_SET_ABSBIT =>
    bit_is_set c.evbit EV_ABS && (decide (i < ABS_CNT) && bit_is_set c.absbit i)
  | ioctl_request.UI_SET_MSCBIT =>
    bit_is_set c.evbit EV_MSC && (decide (i < MSC_CNT) && bit_is_set c.mscbit i)
  | ioctl_request.UI_SET_LEDBIT =>
    bit_is_set c.evbit EV_LED && (decide (i < LED_CNT) && bit_is_set c.ledbit i)
  | ioctl_request.UI_SET_SNDBIT =>
    bit_is_set c.evbit EV_SND && (decide (i < SND_CNT) && bit_is_set c.sndbit i)
  | ioctl_request.UI_SET_FFBIT =>
    bit_is_set c.evbit EV_FF && (decide (i < FF_CNT) && bit_is_set c.ffbit i)
  | ioctl_request.UI_SET_SWBIT =>
    bit_is_set c.evbit EV_SW && (decide (i < SW_CNT) && bit_is_set c.swbit i)
  | ioctl_request.UI_DEV_CREATE => false

/-- An `ioctl` oracle under which every call succeeds. -/
def ioctl_ok (request : ioctl_request) (arg : Nat) : Int := 0

/-- The return of `getopt_long` for the option `--mouse`. -/
def arg_mouse : getopt_result := ⟨option_char 'm', none, 0⟩

/-- The return of `getopt_long` for the option `--keyboard`. -/
def arg_keyboard : getopt_result := ⟨option_char 'k', none, 0⟩

/-- The return of `getopt_long` for the option `--tablet`. -/
def arg_tablet : getopt_result := ⟨option_char 't', none, 0⟩

/-- The position of the word `long_test_bit` and `long_set_bit` access, `none` where their
guard returns before any access. -/
def long_bit_word (bit : Int) (bitfield_size : Nat) : Option Nat :=
  let ubit : Nat := (bit % 18446744073709551616).toNat
  if ubit / BITS_PER_LONG ≥ bitfield_size then none
  else some (ubit / BITS_PER_LONG)

/-- The registration calls the specification asks for one category: for an enabled
category, one call per set bit below `count`, in increasing order; none for a category that
is not enabled. -/
def registration_calls (request : ioctl_request) (enabled : Bool) (bits : List Nat)
    (count : Nat) : List uinput_call :=
  if enabled = true then
    ((List.range' 0 count).filter (fun j => bit_is_set bits j)).map (uinput_call.ioctl request)
  else []

/-- A registration call that succeeded: an `ioctl` with one of the nine registration
requests whose return is not -1. -/
def registration_ok (ioctl_rc : ioctl_request → Nat → Int) (c : uinput_call) : Prop :=
  ∃ request arg, c = uinput_call.ioctl request arg ∧
    request ≠ ioctl_request.UI_DEV_CREATE ∧ ioctl_rc request arg ≠ -1

/-- A registration call that failed: an `ioctl` with one of the nine registration requests
whose return is -1. -/
def registration_failed (ioctl_rc : ioctl_request → Nat → Int) (c : uinput_call) : Prop :=
  ∃ request arg, c = uinput_call.ioctl request arg ∧
    request ≠ ioctl_request.UI_DEV_CREATE ∧ ioctl_rc request arg = -1

/-- The two shapes a run of registration calls can have: return 0 after calls that all
succeeded, or return -1 after calls that succeeded followed by one failed call, the last. -/
def registration_run (ioctl_rc : ioctl_request → Nat → Int) (st : reg_result) : Prop :=
  (st.ret = 0 ∧ ∀ x ∈ st.calls, registration_ok ioctl_rc x) ∨
  (st.ret = -1 ∧ ∃ pre c, st.calls = pre ++ [c] ∧ registration_failed ioctl_rc c ∧
    ∀ x ∈ pre, registration_ok ioctl_rc x)

/-- An `ioctl` oracle under which the `UI_SET_KEYBIT` call for BTN_LEFT fails and every
other call succeeds. -/
def ioctl_btn_left_fails (request : ioctl_request) (arg : Nat) : Int :=
  if request = ioctl_request.UI_SET_KEYBIT ∧ arg = BTN_LEFT then -1 else 0

/-- The contract of `write_all` the forwarding loop relies on: it returns -1 on failure and
a positive value on success, for both directions of every round. -/
def write_all_contract (rounds : List poll_round) : Prop :=
  ∀ r ∈ rounds, (r.wrc0 = -1 ∨ 0 < r.wrc0) ∧ (r.wrc1 = -1 ∨ 0 < r.wrc1)

/-- A round in which only the peer side is ready and the read reports end-of-stream. -/
def round_peer_eof : poll_round :=
  ⟨1, 1, 0, ⟨0, ⟨⟨0, 0⟩, 0, 0, 0⟩⟩, 1, ⟨1, ⟨⟨0, 0⟩, 0, 0, 0⟩⟩, 1⟩

/-- A round in which both sides are ready and each has a sync event to give. -/
def round_both_sync : poll_round :=
  ⟨2, 1, 1, ⟨1, ⟨⟨5, 5⟩, EV_SYN, 0, 0⟩⟩, 1, ⟨1, ⟨⟨6, 6⟩, EV_SYN, 0, 0⟩⟩, 1⟩

/-! ## Lemmas on the bitset utilities -/

theorem and_one_shiftLeft_ne_zero (w j : Nat) :
    (w &&& (1 <<< j) ≠ 0) ↔ w.testBit j = true := by
  rw [Nat.one_shiftLeft]
  constructor
  · intro h
    by_contra hb
    apply h
    apply Nat.eq_of_testBit_eq
    intro i
    rw [Nat.testBit_and, Nat.testBit_two_pow, Nat.zero_testBit]
    by_cases hji : j = i
    · subst hji; simp [hb]
    · simp [hji]
  · intro hb h
    have : (w &&& 2 ^ j).testBit j = true := by
      rw [Nat.testBit_and, Nat.testBit_two_pow_self, hb]; rfl
    rw [h, Nat.zero_testBit] at this
    exact Bool.noConfusion this

theorem int_to_ulong_of_nat (k : Nat) (hk : k < 18446744073709551616) :
    ((k : Int) % 18446744073709551616).toNat = k := by
  omega

theorem and_63_eq_mod (k : Nat) : k &&& (BITS_PER_LONG - 1) = k % 64 := by
  have := Nat.and_pow_two_sub_one_eq_mod k 6
  simpa [BITS_PER_LONG] using this

theorem LONG_TEST_BIT_eq (bitfield : List Nat) (k : Nat) (hk : k < 18446744073709551616) :
    LONG_TEST_BIT bitfield (k : Int) = if bit_is_set bitfield k = true then 1 else 0 := by
  unfold LONG_TEST_BIT long_test_bit bit_is_set
  simp only [int_to_ulong_of_nat k hk, and_63_eq_mod]
  by_cases hlen : k / BITS_PER_LONG ≥ bitfield.length
  · have h0 : bitfield.getD (k / 64) 0 = 0 := by
      apply List.getD_eq_default
      simpa [BITS_PER_LONG] using hlen
    rw [if_pos hlen, h0, Nat.zero_testBit]
    rfl
  · rw [if_neg hlen]
    have hB : k / BITS_PER_LONG = k / 64 := rfl
    rw [hB]
    by_cases hb : (bitfield.getD (k / 64) 0).testBit (k % 64) = true
    · rw [if_pos ((and_one_shiftLeft_ne_zero _ _).2 hb), if_pos hb]
    · rw [if_neg (fun h => hb ((and_one_shiftLeft_ne_zero _ _).1 h)), if_neg hb]

theorem long_and_length (dst src : List Nat) (n : Nat) :
    (long_and dst src n).length = dst.length := by
  induction n with
  | zero => simp [long_and]
  | succ n ih =>
    have hstep : long_and dst src (n + 1) =
        (long_and dst src n).set n ((long_and dst src n).getD n 0 &&& src.getD n 0) := by
      simp [long_and, List.range_succ, List.foldl_append]
    rw [hstep, List.length_set, ih]

theorem long_and_getD (dst src : List Nat) (n i : Nat) :
    (long_and dst src n).getD i 0 =
      if i < n then dst.getD i 0 &&& src.getD i 0 else dst.getD i 0 := by
  induction n with
  | zero => simp [long_and]
  | succ n ih =>
    have hstep : long_and dst src (n + 1) =
        (long_and dst src n).set n ((long_and dst src n).getD n 0 &&& src.getD n 0) := by
      simp [long_and, List.range_succ, List.foldl_append]
    rw [hstep]
    by_cases hin : i = n
    · subst hin
      by_cases hlen : i < dst.length
      · have hl : i < (long_and dst src i).length := by rw [long_and_length]; exact hlen
        simp [List.getD_eq_getElem?_getD, List.getElem?_set, hl] at ih ⊢
        rw [ih]
      · have hl : ¬ i < (long_and dst src i).length := by rw [long_and_length]; exact hlen
        have hd : dst.getD i 0 = 0 := List.getD_eq_default _ _ (by omega)
        have hs : ((long_and dst src i).set i ((long_and dst src i).getD i 0 &&& src.getD i 0)).getD i 0 = 0 :=
          List.getD_eq_default _ _ (by rw [List.length_set, long_and_length]; omega)
        rw [hs, hd]; simp
    · have hne : n ≠ i := fun h => hin h.symm
      have : ((long_and dst src n).set n ((long_and dst src n).getD n 0 &&& src.getD n 0)).getD i 0
          = (long_and dst src n).getD i 0 := by
        simp [List.getD_eq_getElem?_getD, List.getElem?_set, hne]
      rw [this, ih]
      by_cases h1 : i < n
      · have h2 : i < n + 1 := by omega
        simp [h1, h2]
      · have h2 : ¬ i < n + 1 := by omega
        simp [h1, h2]

theorem LONG_AND_getD (dst src : List Nat) (i : Nat) :
    (LONG_AND dst src).getD i 0 = dst.getD i 0 &&& src.getD i 0 := by
  unfold LONG_AND
  rw [long_and_getD]
  by_cases h : i < dst.length
  · simp [h]
  · have hd : dst.getD i 0 = 0 := List.getD_eq_default _ _ (by omega)
    rw [if_neg h, hd, Nat.zero_and]

/-! ## Lemmas on negotiation -/

theorem bit_is_set_LONG_AND (a b : List Nat) (k : Nat) :
    bit_is_set (LONG_AND a b) k = (bit_is_set a k && bit_is_set b k) := by
  unfold bit_is_set
  rw [LONG_AND_getD, Nat.testBit_and]

theorem memset_zero_all_zero (a : List Nat) : all_zero (memset_zero a) := by
  intro w hw
  exact List.eq_of_mem_replicate hw

theorem bit_is_set_of_all_zero (a : List Nat) (h : all_zero a) (k : Nat) :
    bit_is_set a k = false := by
  unfold bit_is_set
  have h0 : a.getD (k / 64) 0 = 0 := by
    by_cases hlt : k / 64 < a.length
    · rw [List.getD_eq_getElem a 0 hlt]
      exact h _ (List.getElem_mem hlt)
    · exact List.getD_eq_default _ _ (by omega)
  rw [h0, Nat.zero_testBit]

theorem APPLY_BITS_eq (evbit : List Nat) (evflag : Nat) (hf : evflag < 18446744073709551616)
    (field untrusted_field : List Nat) :
    APPLY_BITS evbit evflag field untrusted_field =
      if bit_is_set evbit evflag = true then LONG_AND field untrusted_field
      else memset_zero field := by
  unfold APPLY_BITS
  rw [LONG_TEST_BIT_eq evbit evflag hf]
  by_cases hb : bit_is_set evbit evflag = true
  · simp [hb]
  · simp [hb]

theorem bits_subset_LONG_AND (a b : List Nat) : bits_subset (LONG_AND a b) a := by
  intro k hk
  rw [bit_is_set_LONG_AND, Bool.and_eq_true] at hk
  exact hk.1

theorem bits_subset_APPLY_BITS (evbit : List Nat) (evflag : Nat) (field untrusted_field : List Nat) :
    bits_subset (APPLY_BITS evbit evflag field untrusted_field) field := by
  unfold APPLY_BITS
  split
  · exact bits_subset_LONG_AND _ _
  · intro k hk
    rw [bit_is_set_of_all_zero _ (memset_zero_all_zero field)] at hk
    exact Bool.noConfusion hk

theorem receive_ret_one (opt : options) (rd_hello : read_all_result input_proxy_hello)
    (rd_caps : read_all_result input_proxy_device_caps)
    (h : (receive_and_validate_caps opt rd_hello rd_caps).ret = 1) :
    (receive_and_validate_caps opt rd_hello rd_caps).opt.caps
      = narrow_caps opt.caps rd_caps.buf := by
  unfold receive_and_validate_caps at h ⊢
  simp only at h ⊢
  split_ifs at h ⊢ <;> first | rfl | (simp at h)

theorem narrow_caps_subset (p d : input_proxy_device_caps) :
    caps_subset (narrow_caps p d) p := by
  unfold narrow_caps caps_subset
  exact ⟨bits_subset_LONG_AND _ _, bits_subset_LONG_AND _ _,
    bits_subset_APPLY_BITS _ _ _ _, bits_subset_APPLY_BITS _ _ _ _,
    bits_subset_APPLY_BITS _ _ _ _, bits_subset_APPLY_BITS _ _ _ _,
    bits_subset_APPLY_BITS _ _ _ _, bits_subset_APPLY_BITS _ _ _ _,
    bits_subset_APPLY_BITS _ _ _ _, bits_subset_APPLY_BITS _ _ _ _⟩

theorem APPLY_BITS_all_zero (evbit : List Nat) (evflag : Nat)
    (hf : evflag < 18446744073709551616) (field untrusted_field : List Nat)
    (h : bit_is_set evbit evflag = false) :
    all_zero (APPLY_BITS evbit evflag field untrusted_field) := by
  rw [APPLY_BITS_eq evbit evflag hf, h]
  exact memset_zero_all_zero field

theorem narrow_caps_consistent (p d : input_proxy_device_caps) :
    category_consistent (narrow_caps p d) := by
  unfold narrow_caps category_consistent
  refine ⟨?_, ?_, ?_, ?_, ?_, ?_, ?_, ?_⟩ <;> intro h <;>
    exact APPLY_BITS_all_zero _ _ (by decide) _ _ h

theorem LONG_AND_length (a b : List Nat) : (LONG_AND a b).length = a.length := by
  unfold LONG_AND
  exact long_and_length a b a.length

theorem list_eq_of_getD (a b : List Nat) (hlen : a.length = b.length)
    (h : ∀ i, a.getD i 0 = b.getD i 0) : a = b := by
  apply List.ext_getElem hlen
  intro i h1 h2
  have := h i
  rwa [List.getD_eq_getElem a 0 h1, List.getD_eq_getElem b 0 h2] at this

theorem LONG_AND_eq_bitfield_and (a b : List Nat) (hlen : a.length = b.length) :
    LONG_AND a b = bitfield_and a b := by
  apply list_eq_of_getD
  · rw [LONG_AND_length]; unfold bitfield_and; rw [List.length_zipWith, ← hlen, Nat.min_self]
  · intro i
    rw [LONG_AND_getD]
    unfold bitfield_and
    by_cases hi : i < a.length
    · have hb : i < b.length := hlen ▸ hi
      have hz : i < (List.zipWith (fun x y => x &&& y) a b).length := by
        rw [List.length_zipWith, ← hlen, Nat.min_self]; exact hi
      rw [List.getD_eq_getElem a 0 hi, List.getD_eq_getElem b 0 hb, List.getD_eq_getElem _ 0 hz,
        List.getElem_zipWith]
    · have hz : (List.zipWith (fun x y => x &&& y) a b).length ≤ i := by
        rw [List.length_zipWith, ← hlen, Nat.min_self]; omega
      rw [List.getD_eq_default a 0 (by omega), List.getD_eq_default _ 0 hz, Nat.zero_and]

theorem memset_zero_eq_bitfield_zero (a : List Nat) : memset_zero a = bitfield_zero a := by
  unfold memset_zero bitfield_zero
  induction a with
  | nil => rfl
  | cons x xs ih =>
    rw [List.length_cons, List.replicate_succ, List.map_cons, ih]

theorem APPLY_BITS_eq_spec (evbit : List Nat) (evflag : Nat)
    (hf : evflag < 18446744073709551616) (field untrusted_field : List Nat)
    (hlen : field.length = untrusted_field.length) :
    APPLY_BITS evbit evflag field untrusted_field =
      narrow_category_spec evbit evflag field untrusted_field := by
  rw [APPLY_BITS_eq evbit evflag hf]
  unfold narrow_category_spec
  rw [LONG_AND_eq_bitfield_and _ _ hlen, memset_zero_eq_bitfield_zero]

theorem narrow_caps_eq_spec (p d : input_proxy_device_caps)
    (hp : caps_shape p) (hd : caps_shape d) :
    narrow_caps p d = narrow_spec p d := by
  obtain ⟨p0, p1, p2, p3, p4, p5, p6, p7, p8, p9⟩ := hp
  obtain ⟨d0, d1, d2, d3, d4, d5, d6, d7, d8, d9⟩ := hd
  unfold narrow_caps narrow_spec
  simp only
  rw [LONG_AND_eq_bitfield_and p.propbit d.propbit (p0.trans d0.symm),
    LONG_AND_eq_bitfield_and p.evbit d.evbit (p1.trans d1.symm),
    APPLY_BITS_eq_spec _ EV_KEY (by decide) _ _ (p2.trans d2.symm),
    APPLY_BITS_eq_spec _ EV_REL (by decide) _ _ (p3.trans d3.symm),
    APPLY_BITS_eq_spec _ EV_ABS (by decide) _ _ (p4.trans d4.symm),
    APPLY_BITS_eq_spec _ EV_MSC (by decide) _ _ (p5.trans d5.symm),
    APPLY_BITS_eq_spec _ EV_LED (by decide) _ _ (p6.trans d6.symm),
    APPLY_BITS_eq_spec _ EV_SND (by decide) _ _ (p7.trans d7.symm),
    APPLY_BITS_eq_spec _ EV_FF (by decide) _ _ (p8.trans d8.symm),
    APPLY_BITS_eq_spec _ EV_SW (by decide) _ _ (p9.trans d9.symm)]

/-! ## Negotiation: the claims -/

/-- C1 (monotonicity of negotiation): whenever `receive_and_validate_caps` returns 1, the
capability set it leaves in `opt->caps` is a bitwise subset of the policy it started from,
in every one of the ten bitfields, whatever the declared capability set was. -/
theorem negotiation_monotone (opt : options) (rd_hello : read_all_result input_proxy_hello)
    (rd_caps : read_all_result input_proxy_device_caps)
    (h : (receive_and_validate_caps opt rd_hello rd_caps).ret = 1) :
    caps_subset (receive_and_validate_caps opt rd_hello rd_caps).opt.caps opt.caps := by
  rw [receive_ret_one opt rd_hello rd_caps h]
  exact narrow_caps_subset opt.caps rd_caps.buf

/-- Witness of C1: the policy {EV_KEY, BTN_LEFT} narrowed by an all-bits-set declaration. -/
theorem negotiation_monotone_witness :
    (receive_and_validate_caps (options_of caps_key_btn_left) ⟨1, hello_ok⟩
        ⟨1, caps_all_ones⟩).ret = 1 ∧
    caps_subset (receive_and_validate_caps (options_of caps_key_btn_left) ⟨1, hello_ok⟩
        ⟨1, caps_all_ones⟩).opt.caps (options_of caps_key_btn_left).caps :=
  ⟨by decide, negotiation_monotone _ _ _ (by decide)⟩

/-- C2 (category consistency): after a successful `receive_and_validate_caps`, for each of
the eight categories, if the enabling bit is unset in the resulting `evbit` then every word
of the category's bitfield is zero; the policy itself need not satisfy the invariant. -/
theorem negotiation_category_consistent (opt : options)
    (rd_hello : read_all_result input_proxy_hello)
    (rd_caps : read_all_result input_proxy_device_caps)
    (h : (receive_and_validate_caps opt rd_hello rd_caps).ret = 1) :
    category_consistent (receive_and_validate_caps opt rd_hello rd_caps).opt.caps := by
  rw [receive_ret_one opt rd_hello rd_caps h]
  exact narrow_caps_consistent opt.caps rd_caps.buf

/-- Witness of C2: a policy that violates the invariant (every category bitfield all ones,
only EV_KEY enabled) narrowed by an all-bits-set declaration. -/
theorem negotiation_category_consistent_witness :
    (receive_and_validate_caps
        (options_of { caps_all_ones with evbit := LONG_SET_BIT caps_zero.evbit EV_KEY })
        ⟨1, hello_ok⟩ ⟨1, caps_all_ones⟩).ret = 1 ∧
    category_consistent (receive_and_validate_caps
        (options_of { caps_all_ones with evbit := LONG_SET_BIT caps_zero.evbit EV_KEY })
        ⟨1, hello_ok⟩ ⟨1, caps_all_ones⟩).opt.caps :=
  ⟨by decide, negotiation_category_consistent _ _ _ (by decide)⟩

/-- C3 (narrowing equals its reference definition): after a successful
`receive_and_validate_caps` on a policy and a declared set of the declared shape, the
resulting capability set is the one the narrowing algorithm of the specification gives:
`propbit` and `evbit` are the bitwise AND of policy and declaration, and every category is
the bitwise AND if its enabling bit is set in the narrowed `evbit`, all-zero otherwise. -/
theorem negotiation_refines_spec (opt : options)
    (rd_hello : read_all_result input_proxy_hello)
    (rd_caps : read_all_result input_proxy_device_caps)
    (hp : caps_shape opt.caps) (hd : caps_shape rd_caps.buf)
    (h : (receive_and_validate_caps opt rd_hello rd_caps).ret = 1) :
    (receive_and_validate_caps opt rd_hello rd_caps).opt.caps
      = narrow_spec opt.caps rd_caps.buf := by
  rw [receive_ret_one opt rd_hello rd_caps h]
  exact narrow_caps_eq_spec opt.caps rd_caps.buf hp hd

/-- Witness of C3: the policy {EV_KEY, BTN_LEFT} narrowed by an all-bits-set declaration. -/
theorem negotiation_refines_spec_witness :
    caps_shape (options_of caps_key_btn_left).caps ∧ caps_shape caps_all_ones ∧
    (receive_and_validate_caps (options_of caps_key_btn_left) ⟨1, hello_ok⟩
        ⟨1, caps_all_ones⟩).ret = 1 ∧
    (receive_and_validate_caps (options_of caps_key_btn_left) ⟨1, hello_ok⟩
        ⟨1, caps_all_ones⟩).opt.caps
      = narrow_spec (options_of caps_key_btn_left).caps caps_all_ones :=
  ⟨by decide, by decide, by decide,
    negotiation_refines_spec (options_of caps_key_btn_left) ⟨1, hello_ok⟩ ⟨1, caps_all_ones⟩
      (by decide) (by decide) (by decide)⟩

/-! ## Lemmas on event forwarding -/

theorem LONG_TEST_BIT_eq_zero_iff (bitfield : List Nat) (k : Nat)
    (hk : k < 18446744073709551616) :
    LONG_TEST_BIT bitfield (k : Int) = 0 ↔ bit_is_set bitfield k = false := by
  rw [LONG_TEST_BIT_eq bitfield k hk]
  by_cases hb : bit_is_set bitfield k = true
  · simp [hb]
  · simp [hb]

theorem u16_lt_ulong {k : Nat} (hk : k < 65536) : k < 18446744073709551616 := by
  omega

theorem ite_fwd (P : fwd_result → Prop) (c : Prop) [Decidable c] (a b : fwd_result)
    (ha : P a) (hb : P b) : P (if c then a else b) := by
  split
  · exact ha
  · exact hb

theorem written_time_zero (opt : options) (src dst : Int)
    (rd : read_all_result input_event) (wrc : Int) :
    ∀ w ∈ (validate_and_forward_event opt src dst rd wrc).written, w.2.time = ⟨0, 0⟩ := by
  unfold validate_and_forward_event write_event
  dsimp only
  have hnil : ∀ r : Int, ∀ w ∈ (⟨r, []⟩ : fwd_result).written, w.2.time = (⟨0, 0⟩ : timeval) :=
    fun r w hw => absurd hw (List.not_mem_nil w)
  have hone : ∀ (t c : Nat) (v : Int),
      ∀ w ∈ (⟨wrc, [(dst, ⟨⟨0, 0⟩, t, c, v⟩)]⟩ : fwd_result).written,
        w.2.time = (⟨0, 0⟩ : timeval) := by
    intro t c v w hw
    rw [List.mem_singleton.1 hw]
  repeat' refine ite_fwd (fun r => ∀ w ∈ r.written, w.2.time = (⟨0, 0⟩ : timeval)) _ _ _ ?_ ?_
  all_goals first | exact hnil _ | exact hone _ _ _

/-- C4 (accepted events are relayed faithfully): for a successfully read event of one of
the types EV_KEY, EV_REL, EV_ABS, EV_MSC, EV_SW, EV_LED, EV_SND whose type bit is set in
`caps.evbit` and whose code bit is set in the category's bitfield,
`validate_and_forward_event` issues exactly one `write_all`, to `dst`, of the event with a
zero timestamp and the incoming type, code and value, and returns the return code of that
write. -/
theorem accepted_event_relayed (opt : options) (src dst rc : Int) (e : input_event)
    (wrc : Int) (hrc0 : rc ≠ 0) (hrc1 : rc ≠ -1) (hr : input_event_in_range e)
    (hty : e.type = EV_KEY ∨ e.type = EV_REL ∨ e.type = EV_ABS ∨ e.type = EV_MSC ∨
      e.type = EV_SW ∨ e.type = EV_LED ∨ e.type = EV_SND)
    (hen : bit_is_set opt.caps.evbit e.type = true)
    (hcode : bit_is_set (category_bitfield opt.caps e.type) e.code = true) :
    validate_and_forward_event opt src dst ⟨rc, e⟩ wrc
      = ⟨wrc, [(dst, fresh_event e.type e.code e.value)]⟩ := by
  obtain ⟨ht, hc, -, -⟩ := hr
  have hev : ¬ LONG_TEST_BIT opt.caps.evbit (e.type : Int) = 0 := by
    rw [LONG_TEST_BIT_eq_zero_iff _ _ (u16_lt_ulong ht), hen]; exact Bool.noConfusion
  have hcd : ∀ bf : List Nat, bit_is_set bf e.code = true →
      ¬ LONG_TEST_BIT bf (e.code : Int) = 0 := by
    intro bf hbf
    rw [LONG_TEST_BIT_eq_zero_iff _ _ (u16_lt_ulong hc), hbf]; exact Bool.noConfusion
  unfold validate_and_forward_event write_event fresh_event
  simp only [if_neg hrc0, if_neg hrc1, if_neg hev]
  rcases hty with h | h | h | h | h | h | h <;>
    rw [h] at hcode ⊢ <;>
    simp [category_bitfield, EV_KEY, EV_REL, EV_ABS, EV_MSC, EV_SW, EV_LED, EV_SND, EV_FF,
      EV_SYN] at hcode ⊢ <;>
    exact fun h0 => absurd h0 (hcd _ hcode)

/-- Witness of C4: with caps = {EV_KEY enabled, keybit = {BTN_LEFT}}, the event
{EV_KEY, BTN_LEFT, 1} is written with value 1 and a zero timestamp. -/
theorem accepted_event_relayed_witness :
    bit_is_set (options_of caps_key_btn_left).caps.evbit EV_KEY = true ∧
    bit_is_set (category_bitfield (options_of caps_key_btn_left).caps EV_KEY) BTN_LEFT = true ∧
    validate_and_forward_event (options_of caps_key_btn_left) 0 3
        ⟨1, ⟨⟨1700000000, 250000⟩, EV_KEY, BTN_LEFT, 1⟩⟩ 1
      = ⟨1, [(3, ⟨⟨0, 0⟩, EV_KEY, BTN_LEFT, 1⟩)]⟩ :=
  ⟨by decide, by decide,
    accepted_event_relayed (options_of caps_key_btn_left) 0 3 1
      ⟨⟨1700000000, 250000⟩, EV_KEY, BTN_LEFT, 1⟩ 1 (by decide) (by decide) (by decide)
      (Or.inl rfl) (by decide) (by decide)⟩

/-- C5 (policy drop is silent and non-fatal): for a successfully read event, if its type
bit is not set in `caps.evbit`, or its type is one of EV_KEY, EV_REL, EV_ABS, EV_MSC, EV_SW,
EV_LED, EV_SND and its code bit is not set in the category's bitfield, then
`validate_and_forward_event` issues no `write_all` and returns 1. -/
theorem policy_drop_silent (opt : options) (src dst rc : Int) (e : input_event)
    (wrc : Int) (hrc0 : rc ≠ 0) (hrc1 : rc ≠ -1) (hr : input_event_in_range e)
    (hdrop : bit_is_set opt.caps.evbit e.type = false ∨
      ((e.type = EV_KEY ∨ e.type = EV_REL ∨ e.type = EV_ABS ∨ e.type = EV_MSC ∨
          e.type = EV_SW ∨ e.type = EV_LED ∨ e.type = EV_SND) ∧
        bit_is_set (category_bitfield opt.caps e.type) e.code = false)) :
    validate_and_forward_event opt src dst ⟨rc, e⟩ wrc = ⟨1, []⟩ := by
  obtain ⟨ht, hc, -, -⟩ := hr
  unfold validate_and_forward_event write_event
  simp only [if_neg hrc0, if_neg hrc1]
  by_cases hev : LONG_TEST_BIT opt.caps.evbit (e.type : Int) = 0
  · rw [if_pos hev]
  · rw [if_neg hev]
    rcases hdrop with hoff | ⟨hty, hcode⟩
    · exact absurd ((LONG_TEST_BIT_eq_zero_iff _ _ (u16_lt_ulong ht)).2 hoff) hev
    · have hcd : ∀ bf : List Nat, bit_is_set bf e.code = false →
          LONG_TEST_BIT bf (e.code : Int) = 0 := fun bf hbf =>
        (LONG_TEST_BIT_eq_zero_iff _ _ (u16_lt_ulong hc)).2 hbf
      rcases hty with h | h | h | h | h | h | h <;>
        rw [h] at hcode ⊢ <;>
        simp [category_bitfield, EV_KEY, EV_REL, EV_ABS, EV_MSC, EV_SW, EV_LED, EV_SND,
          EV_FF, EV_SYN] at hcode ⊢ <;>
        exact hcd _ hcode

/-- Witness of C5: with caps = {EV_KEY enabled, keybit = {BTN_LEFT}}, the event
{EV_KEY, BTN_RIGHT, 1} is dropped and the loop continues. -/
theorem policy_drop_silent_witness :
    bit_is_set (category_bitfield (options_of caps_key_btn_left).caps EV_KEY) BTN_RIGHT = false ∧
    validate_and_forward_event (options_of caps_key_btn_left) 0 3
        ⟨1, ⟨⟨1700000000, 250000⟩, EV_KEY, BTN_RIGHT, 1⟩⟩ 1 = ⟨1, []⟩ :=
  ⟨by decide,
    policy_drop_silent (options_of caps_key_btn_left) 0 3 1
      ⟨⟨1700000000, 250000⟩, EV_KEY, BTN_RIGHT, 1⟩ 1 (by decide) (by decide) (by decide)
      (Or.inr ⟨Or.inl rfl, by decide⟩)⟩

/-- C6 (unmodelled categories are fatal when enabled): for a successfully read event whose
type bit is set in `caps.evbit` and whose type is none of EV_SYN, EV_KEY, EV_REL, EV_ABS,
EV_MSC, EV_SW, EV_LED, EV_SND, `validate_and_forward_event` returns -1 and issues no
`write_all`, whatever the code, the value and the contents of `ffbit`. -/
theorem unmodelled_type_fatal (opt : options) (src dst rc : Int) (e : input_event)
    (wrc : Int) (hrc0 : rc ≠ 0) (hrc1 : rc ≠ -1) (hr : input_event_in_range e)
    (hen : bit_is_set opt.caps.evbit e.type = true)
    (hsyn : e.type ≠ EV_SYN) (hkey : e.type ≠ EV_KEY) (hrel : e.type ≠ EV_REL)
    (habs : e.type ≠ EV_ABS) (hmsc : e.type ≠ EV_MSC) (hsw : e.type ≠ EV_SW)
    (hled : e.type ≠ EV_LED) (hsnd : e.type ≠ EV_SND) :
    validate_and_forward_event opt src dst ⟨rc, e⟩ wrc = ⟨-1, []⟩ := by
  obtain ⟨ht, -, -, -⟩ := hr
  have hev : ¬ LONG_TEST_BIT opt.caps.evbit (e.type : Int) = 0 := by
    rw [LONG_TEST_BIT_eq_zero_iff _ _ (u16_lt_ulong ht), hen]; exact Bool.noConfusion
  unfold validate_and_forward_event
  simp only [if_neg hrc0, if_neg hrc1, if_neg hev, if_neg hsyn, if_neg hkey, if_neg hrel,
    if_neg habs, if_neg hmsc, if_neg hsw, if_neg hled, if_neg hsnd]

/-- Witness of C6: an EV_FF event, with EV_FF enabled and every force-feedback bit set. -/
theorem unmodelled_type_fatal_witness :
    bit_is_set (options_of caps_all_ones).caps.evbit EV_FF = true ∧
    validate_and_forward_event (options_of caps_all_ones) 0 3
        ⟨1, ⟨⟨0, 0⟩, EV_FF, 0, 0⟩⟩ 1 = ⟨-1, []⟩ :=
  ⟨by decide,
    unmodelled_type_fatal (options_of caps_all_ones) 0 3 1 ⟨⟨0, 0⟩, EV_FF, 0, 0⟩ 1
      (by decide) (by decide) (by decide) (by decide) (by decide) (by decide) (by decide)
      (by decide) (by decide) (by decide) (by decide) (by decide)⟩

/-- C7 (sync bound): with EV_SYN enabled in `caps.evbit`, for a successfully read event of
type EV_SYN: if its code is at most SYN_MAX, the event {zero timestamp, EV_SYN, code, 0} is
written to `dst`, whatever the incoming value; if its code exceeds SYN_MAX the function
returns -1 and writes nothing. -/
theorem sync_bound (opt : options) (src dst rc : Int) (e : input_event)
    (wrc : Int) (hrc0 : rc ≠ 0) (hrc1 : rc ≠ -1) (hr : input_event_in_range e)
    (hen : bit_is_set opt.caps.evbit EV_SYN = true) (hty : e.type = EV_SYN) :
    (e.code ≤ SYN_MAX →
      validate_and_forward_event opt src dst ⟨rc, e⟩ wrc
        = ⟨wrc, [(dst, fresh_event EV_SYN e.code 0)]⟩) ∧
    (e.code > SYN_MAX →
      validate_and_forward_event opt src dst ⟨rc, e⟩ wrc = ⟨-1, []⟩) := by
  obtain ⟨ht, -, -, -⟩ := hr
  have hev : ¬ LONG_TEST_BIT opt.caps.evbit (e.type : Int) = 0 := by
    rw [LONG_TEST_BIT_eq_zero_iff _ _ (u16_lt_ulong ht), hty, hen]; exact Bool.noConfusion
  unfold validate_and_forward_event write_event fresh_event
  simp only [if_neg hrc0, if_neg hrc1, if_neg hev, if_pos hty]
  constructor
  · intro hle
    rw [if_neg (Nat.not_lt.2 hle), hty]
  · intro hgt
    rw [if_pos hgt]

/-- Witness of C7: {EV_SYN, SYN_MAX, 5} is forwarded with value 0, and
{EV_SYN, SYN_MAX+1, 5} is fatal. -/
theorem sync_bound_witness :
    validate_and_forward_event (options_of caps_all_ones) 0 3
        ⟨1, ⟨⟨7, 7⟩, EV_SYN, SYN_MAX, 5⟩⟩ 1 = ⟨1, [(3, ⟨⟨0, 0⟩, EV_SYN, SYN_MAX, 0⟩)]⟩ ∧
    validate_and_forward_event (options_of caps_all_ones) 0 3
        ⟨1, ⟨⟨7, 7⟩, EV_SYN, SYN_MAX + 1, 5⟩⟩ 1 = ⟨-1, []⟩ :=
  ⟨(sync_bound (options_of caps_all_ones) 0 3 1 ⟨⟨7, 7⟩, EV_SYN, SYN_MAX, 5⟩ 1
      (by decide) (by decide) (by decide) (by decide) rfl).1 (by decide),
   (sync_bound (options_of caps_all_ones) 0 3 1 ⟨⟨7, 7⟩, EV_SYN, SYN_MAX + 1, 5⟩ 1
      (by decide) (by decide) (by decide) (by decide) rfl).2 (by decide)⟩

/-- C8 (timestamp non-interference): two incoming events that agree on type, code and
value, whatever their timestamps, give the same return value and the same `write_all`
calls; and every event written carries a zero timestamp. -/
theorem timestamp_noninterference (opt : options) (src dst rc : Int)
    (e1 e2 : input_event) (wrc : Int)
    (hty : e1.type = e2.type) (hcode : e1.code = e2.code) (hval : e1.value = e2.value) :
    validate_and_forward_event opt src dst ⟨rc, e1⟩ wrc
      = validate_and_forward_event opt src dst ⟨rc, e2⟩ wrc ∧
    ∀ w ∈ (validate_and_forward_event opt src dst ⟨rc, e1⟩ wrc).written,
      w.2.time = ⟨0, 0⟩ := by
  constructor
  · unfold validate_and_forward_event
    simp only [hty, hcode, hval]
  · exact written_time_zero opt src dst ⟨rc, e1⟩ wrc

/-- Witness of C8: two BTN_LEFT presses with different timestamps. -/
theorem timestamp_noninterference_witness :
    validate_and_forward_event (options_of caps_key_btn_left) 0 3
        ⟨1, ⟨⟨1700000000, 250000⟩, EV_KEY, BTN_LEFT, 1⟩⟩ 1
      = validate_and_forward_event (options_of caps_key_btn_left) 0 3
        ⟨1, ⟨⟨-1, 999999⟩, EV_KEY, BTN_LEFT, 1⟩⟩ 1 ∧
    ∀ w ∈ (validate_and_forward_event (options_of caps_key_btn_left) 0 3
        ⟨1, ⟨⟨1700000000, 250000⟩, EV_KEY, BTN_LEFT, 1⟩⟩ 1).written, w.2.time = ⟨0, 0⟩ :=
  timestamp_noninterference (options_of caps_key_btn_left) 0 3 1
    ⟨⟨1700000000, 250000⟩, EV_KEY, BTN_LEFT, 1⟩ ⟨⟨-1, 999999⟩, EV_KEY, BTN_LEFT, 1⟩ 1
    rfl rfl rfl

/-! ## The Hello and end-of-stream: the claims -/

/-- C9 (Hello rejection precedes the capability read and is atomic): for a successfully
read Hello whose version is not `INPUT_PROXY_PROTOCOL_VERSION` or whose `caps_size` is not
the size of `struct input_proxy_device_caps`, `receive_and_validate_caps` returns -1, has
issued the Hello read only (the capability payload is not read), and leaves the options,
`opt->caps` included, unchanged. -/
theorem hello_rejected_before_caps (opt : options) (rc : Int) (hello : input_proxy_hello)
    (rd_caps : read_all_result input_proxy_device_caps)
    (hrc0 : rc ≠ 0) (hrc1 : rc ≠ -1)
    (hbad : hello.version ≠ INPUT_PROXY_PROTOCOL_VERSION ∨
      hello.caps_size ≠ sizeof_input_proxy_device_caps) :
    receive_and_validate_caps opt ⟨rc, hello⟩ rd_caps
      = ⟨-1, opt, [sizeof_input_proxy_hello]⟩ := by
  unfold receive_and_validate_caps
  simp only [if_neg hrc0, if_neg hrc1]
  by_cases hv : hello.version ≠ INPUT_PROXY_PROTOCOL_VERSION
  · rw [if_pos hv]
  · rw [if_neg hv]
    rcases hbad with h | h
    · exact absurd h hv
    · rw [if_pos h]

/-- Witness of C9: a Hello with version supported+1 and an all-bits-set payload behind it. -/
theorem hello_rejected_before_caps_witness :
    receive_and_validate_caps (options_of caps_key_btn_left)
        ⟨1, ⟨INPUT_PROXY_PROTOCOL_VERSION + 1, sizeof_input_proxy_device_caps⟩⟩
        ⟨1, caps_all_ones⟩
      = ⟨-1, options_of caps_key_btn_left, [sizeof_input_proxy_hello]⟩ :=
  hello_rejected_before_caps (options_of caps_key_btn_left) 1
    ⟨INPUT_PROXY_PROTOCOL_VERSION + 1, sizeof_input_proxy_device_caps⟩ ⟨1, caps_all_ones⟩
    (by decide) (by decide) (Or.inl (by decide))

/-- C10, as stated, fails: after a valid, successfully read Hello, a clean end-of-stream
reported by the capability read makes `receive_and_validate_caps` return 0, not -1, although
the Hello read did not report end-of-stream. -/
theorem eof_on_caps_read_returns_zero :
    (⟨1, hello_ok⟩ : read_all_result input_proxy_hello).rc ≠ 0 ∧
    (receive_and_validate_caps (options_of caps_key_btn_left) ⟨1, hello_ok⟩
        ⟨0, caps_zero⟩).ret = 0 ∧
    (receive_and_validate_caps (options_of caps_key_btn_left) ⟨1, hello_ok⟩
        ⟨0, caps_zero⟩).ret ≠ -1 := by
  decide

/-- C10, amended: `receive_and_validate_caps` returns 0 exactly when the Hello read reports
clean end-of-stream, or the Hello is read successfully with the supported version and the
compiled size and the capability read reports clean end-of-stream; a failed read (-1) of
the Hello, or of the capability set after such a Hello, yields -1. -/
theorem eof_outcomes (opt : options) (rd_hello : read_all_result input_proxy_hello)
    (rd_caps : read_all_result input_proxy_device_caps) :
    ((receive_and_validate_caps opt rd_hello rd_caps).ret = 0 ↔
      (rd_hello.rc = 0 ∨
        (rd_hello.rc ≠ -1 ∧ rd_hello.buf.version = INPUT_PROXY_PROTOCOL_VERSION ∧
          rd_hello.buf.caps_size = sizeof_input_proxy_device_caps ∧ rd_caps.rc = 0))) ∧
    (rd_hello.rc = -1 → (receive_and_validate_caps opt rd_hello rd_caps).ret = -1) ∧
    (rd_hello.rc ≠ 0 → rd_hello.rc ≠ -1 →
      rd_hello.buf.version = INPUT_PROXY_PROTOCOL_VERSION →
      rd_hello.buf.caps_size = sizeof_input_proxy_device_caps →
      rd_caps.rc = -1 → (receive_and_validate_caps opt rd_hello rd_caps).ret = -1) := by
  unfold receive_and_validate_caps
  dsimp only
  refine ⟨?_, ?_, ?_⟩
  · by_cases h0 : rd_hello.rc = 0
    · simp [h0]
    · by_cases h1 : rd_hello.rc = -1
      · simp [h0, h1]
      · by_cases hv : rd_hello.buf.version = INPUT_PROXY_PROTOCOL_VERSION
        · by_cases hs : rd_hello.buf.caps_size = sizeof_input_proxy_device_caps
          · by_cases c0 : rd_caps.rc = 0
            · simp [h0, h1, hv, hs, c0]
            · by_cases c1 : rd_caps.rc = -1
              · simp [h0, h1, hv, hs, c0, c1]
              · simp [h0, h1, hv, hs, c0, c1]
          · simp [h0, h1, hv, hs]
        · simp [h0, h1, hv]
  · intro h1
    have h0 : rd_hello.rc ≠ 0 := by rw [h1]; decide
    simp [h0, h1]
  · intro h0 h1 hv hs c1
    have c0 : rd_caps.rc ≠ 0 := by rw [c1]; decide
    simp [h0, h1, hv, hs, c0, c1]

/-- Witness of amended C10: a failed capability read after a valid Hello is fatal, and a
clean end-of-stream at the Hello is benign. -/
theorem eof_outcomes_witness :
    (receive_and_validate_caps (options_of caps_key_btn_left) ⟨1, hello_ok⟩
        ⟨-1, caps_zero⟩).ret = -1 ∧
    (receive_and_validate_caps (options_of caps_key_btn_left) ⟨0, hello_ok⟩
        ⟨1, caps_zero⟩).ret = 0 :=
  ⟨(eof_outcomes (options_of caps_key_btn_left) ⟨1, hello_ok⟩ ⟨-1, caps_zero⟩).2.2
      (by decide) (by decide) rfl rfl rfl,
   (eof_outcomes (options_of caps_key_btn_left) ⟨0, hello_ok⟩ ⟨1, caps_zero⟩).1.2
      (Or.inl rfl)⟩


/-! ## Idempotence of narrowing -/

theorem LONG_AND_absorb_left (a b : List Nat) : LONG_AND (LONG_AND a b) a = LONG_AND a b := by
  apply list_eq_of_getD
  · rw [LONG_AND_length]
  · intro i
    rw [LONG_AND_getD, LONG_AND_getD, Nat.and_assoc, Nat.and_comm (b.getD i 0),
      ← Nat.and_assoc, Nat.and_self]

theorem LONG_AND_absorb_right (a b : List Nat) : LONG_AND (LONG_AND a b) b = LONG_AND a b := by
  apply list_eq_of_getD
  · rw [LONG_AND_length]
  · intro i
    rw [LONG_AND_getD, LONG_AND_getD, Nat.and_assoc, Nat.and_self]

theorem memset_zero_idem (a : List Nat) : memset_zero (memset_zero a) = memset_zero a := by
  unfold memset_zero
  rw [List.length_replicate]

theorem APPLY_BITS_absorb_left (evbit : List Nat) (evflag : Nat) (a b : List Nat) :
    APPLY_BITS evbit evflag (APPLY_BITS evbit evflag a b) a = APPLY_BITS evbit evflag a b := by
  unfold APPLY_BITS
  by_cases h : LONG_TEST_BIT evbit (evflag : Int) ≠ 0
  · simp only [if_pos h]
    exact LONG_AND_absorb_left a b
  · simp only [if_neg h]
    exact memset_zero_idem a

theorem APPLY_BITS_absorb_right (evbit : List Nat) (evflag : Nat) (a b : List Nat) :
    APPLY_BITS evbit evflag (APPLY_BITS evbit evflag a b) b = APPLY_BITS evbit evflag a b := by
  unfold APPLY_BITS
  by_cases h : LONG_TEST_BIT evbit (evflag : Int) ≠ 0
  · simp only [if_pos h]
    exact LONG_AND_absorb_right a b
  · simp only [if_neg h]
    exact memset_zero_idem a

/-- C11 (idempotence of narrowing): with R the result of narrowing a policy P by a declared
set D, narrowing R again with P as the declared set yields exactly R, in every bitfield, and
so does narrowing R again by the same D. -/
theorem narrowing_idempotent (p d : input_proxy_device_caps) :
    narrow_caps (narrow_caps p d) p = narrow_caps p d ∧
    narrow_caps (narrow_caps p d) d = narrow_caps p d := by
  constructor
  · simp only [narrow_caps, LONG_AND_absorb_left, APPLY_BITS_absorb_left]
  · simp only [narrow_caps, LONG_AND_absorb_right, APPLY_BITS_absorb_right]

/-! ## Totality of the bitset utilities -/

theorem getD_set_eq (l : List Nat) (q v i : Nat) (hq : q < l.length) :
    (l.set q v).getD i 0 = if i = q then v else l.getD i 0 := by
  by_cases h : i = q
  · subst h
    rw [if_pos rfl, List.getD_eq_getElem _ 0 (by rw [List.length_set]; exact hq),
      List.getElem_set_self]
  · rw [if_neg h]
    by_cases hi : i < l.length
    · rw [List.getD_eq_getElem _ 0 (by rw [List.length_set]; exact hi),
        List.getD_eq_getElem _ 0 hi, List.getElem_set_ne (fun hh => h hh.symm)]
    · rw [List.getD_eq_default _ _ (by rw [List.length_set]; omega),
        List.getD_eq_default _ _ (by omega)]

theorem long_set_bit_in_range (bitfield : List Nat) (k : Nat)
    (hbig : k < 18446744073709551616) (hk : k < 64 * bitfield.length) (j : Nat) :
    bit_is_set (long_set_bit bitfield (k : Int) bitfield.length) j
      = (decide (j = k) || bit_is_set bitfield j) := by
  have hq : k / 64 < bitfield.length := by omega
  unfold long_set_bit bit_is_set
  simp only [int_to_ulong_of_nat k hbig, and_63_eq_mod]
  have hB : k / BITS_PER_LONG = k / 64 := rfl
  rw [hB, if_neg (by omega), getD_set_eq _ _ _ _ hq]
  by_cases hj : j / 64 = k / 64
  · rw [if_pos hj, Nat.testBit_or, Nat.one_shiftLeft, Nat.testBit_two_pow, hj]
    by_cases hm : k % 64 = j % 64
    · have hjk : j = k := by omega
      simp [hm, hjk]
    · have hjk : ¬ j = k := by omega
      simp [hm, hjk]
  · rw [if_neg hj]
    have hjk : ¬ j = k := fun h => hj (by rw [h])
    simp [hjk]

theorem long_set_bit_length (bitfield : List Nat) (bit : Int) (n : Nat) :
    (long_set_bit bitfield bit n).length = bitfield.length := by
  unfold long_set_bit
  dsimp only
  split
  · rfl
  · rw [List.length_set]

theorem out_of_range_word (bit : Int) (n : Nat)
    (hlo : -2147483648 ≤ bit) (hhi : bit < 2147483648) (hn : n ≤ 144115188075855872)
    (hout : bit < 0 ∨ (64 * n : Int) ≤ bit) :
    (bit % 18446744073709551616).toNat / BITS_PER_LONG ≥ n := by
  simp only [BITS_PER_LONG]
  omega

/-- C16 (the bitset operations are total, with false/no-op out-of-range semantics): for a
bitfield of n words (n at most 2^57) and every `int` index: the word `long_test_bit` and
`long_set_bit` access, if any, lies below n; for an index outside [0, n*BITS_PER_LONG),
negative ones included, `long_test_bit` returns 0 and `long_set_bit` leaves the bitfield
unchanged; for an index inside, `long_test_bit` returns 1 if the bit is set and 0 if not,
and `long_set_bit` sets exactly that bit and changes no other. -/
theorem bitset_total (bitfield : List Nat) (bit : Int)
    (hlo : -2147483648 ≤ bit) (hhi : bit < 2147483648)
    (hn : bitfield.length ≤ 144115188075855872) :
    (∀ idx, long_bit_word bit bitfield.length = some idx → idx < bitfield.length) ∧
    ((bit < 0 ∨ (64 * bitfield.length : Int) ≤ bit) →
      long_test_bit bitfield bit bitfield.length = 0 ∧
      long_set_bit bitfield bit bitfield.length = bitfield) ∧
    ((0 ≤ bit ∧ bit < (64 * bitfield.length : Int)) →
      long_test_bit bitfield bit bitfield.length
        = (if bit_is_set bitfield bit.toNat = true then 1 else 0) ∧
      (long_set_bit bitfield bit bitfield.length).length = bitfield.length ∧
      ∀ j, bit_is_set (long_set_bit bitfield bit bitfield.length) j
        = (decide (j = bit.toNat) || bit_is_set bitfield j)) := by
  refine ⟨?_, ?_, ?_⟩
  · intro idx h
    unfold long_bit_word at h
    dsimp only at h
    by_cases hg : (bit % 18446744073709551616).toNat / BITS_PER_LONG ≥ bitfield.length
    · rw [if_pos hg] at h
      exact Option.noConfusion h
    · rw [if_neg hg] at h
      have := Option.some.inj h
      omega
  · intro hout
    have hg := out_of_range_word bit bitfield.length hlo hhi hn hout
    unfold long_test_bit long_set_bit
    dsimp only
    rw [if_pos hg, if_pos hg]
    exact ⟨rfl, rfl⟩
  · intro hin
    obtain ⟨h0, h1⟩ := hin
    obtain ⟨k, rfl⟩ := Int.eq_ofNat_of_zero_le h0
    have hk : k < 64 * bitfield.length := by omega
    have hbig : k < 18446744073709551616 := by omega
    refine ⟨?_, long_set_bit_length _ _ _, ?_⟩
    · have := LONG_TEST_BIT_eq bitfield k hbig
      unfold LONG_TEST_BIT at this
      rw [this, Int.toNat_ofNat]
    · intro j
      rw [Int.toNat_ofNat]
      exact long_set_bit_in_range bitfield k hbig hk j

/-- Witness of C16: on a two-word bitfield with every bit set, index -1 is out of range:
the test gives 0 and the set changes nothing. -/
theorem bitset_total_witness :
    long_test_bit [18446744073709551615, 18446744073709551615] (-1) 2 = 0 ∧
    long_set_bit [18446744073709551615, 18446744073709551615] (-1) 2
      = [18446744073709551615, 18446744073709551615] :=
  (bitset_total [18446744073709551615, 18446744073709551615] (-1) (by decide) (by decide)
    (by decide)).2.1 (Or.inl (by decide))

/-! ## Force-feedback traffic -/

/-- C17, as stated, fails: with caps = {EV_KEY enabled, keybit = {BTN_LEFT}}, where EV_FF is
not enabled, the event {EV_FF, 0, 0} makes `validate_and_forward_event` return 1 and write
nothing; it is dropped, not fatal. -/
theorem disabled_ff_event_is_dropped :
    bit_is_set (options_of caps_key_btn_left).caps.evbit EV_FF = false ∧
    validate_and_forward_event (options_of caps_key_btn_left) 0 3
        ⟨1, ⟨⟨0, 0⟩, EV_FF, 0, 0⟩⟩ 1 = ⟨1, []⟩ ∧
    (validate_and_forward_event (options_of caps_key_btn_left) 0 3
        ⟨1, ⟨⟨0, 0⟩, EV_FF, 0, 0⟩⟩ 1).ret ≠ -1 := by
  decide

/-- C17, amended: a successfully read event of type EV_FF is fatal (return -1, nothing
written) when the EV_FF bit is set in `caps.evbit`, whatever `ffbit` holds; when the EV_FF
bit is not set it is dropped (return 1, nothing written). -/
theorem ff_event_outcome (opt : options) (src dst rc : Int) (e : input_event) (wrc : Int)
    (hrc0 : rc ≠ 0) (hrc1 : rc ≠ -1) (hty : e.type = EV_FF) :
    (bit_is_set opt.caps.evbit EV_FF = true →
      validate_and_forward_event opt src dst ⟨rc, e⟩ wrc = ⟨-1, []⟩) ∧
    (bit_is_set opt.caps.evbit EV_FF = false →
      validate_and_forward_event opt src dst ⟨rc, e⟩ wrc = ⟨1, []⟩) := by
  have hz := LONG_TEST_BIT_eq_zero_iff opt.caps.evbit EV_FF (by decide)
  unfold validate_and_forward_event
  simp only [if_neg hrc0, if_neg hrc1, hty]
  constructor
  · intro hen
    have hev : ¬ LONG_TEST_BIT opt.caps.evbit (EV_FF : Int) = 0 := by
      rw [hz, hen]; exact Bool.noConfusion
    rw [if_neg hev]
    simp [EV_FF, EV_SYN, EV_KEY, EV_REL, EV_ABS, EV_MSC, EV_SW, EV_LED, EV_SND]
  · intro hoff
    rw [if_pos (hz.2 hoff)]

/-- Witness of amended C17: EV_FF enabled with every force-feedback bit set is fatal; EV_FF
disabled is a drop. -/
theorem ff_event_outcome_witness :
    validate_and_forward_event (options_of caps_all_ones) 0 3
        ⟨1, ⟨⟨0, 0⟩, EV_FF, 0, 0⟩⟩ 1 = ⟨-1, []⟩ ∧
    validate_and_forward_event (options_of caps_key_btn_left) 0 3
        ⟨1, ⟨⟨0, 0⟩, EV_FF, 0, 0⟩⟩ 1 = ⟨1, []⟩ :=
  ⟨(ff_event_outcome (options_of caps_all_ones) 0 3 1 ⟨⟨0, 0⟩, EV_FF, 0, 0⟩ 1
      (by decide) (by decide) rfl).1 (by decide),
   (ff_event_outcome (options_of caps_key_btn_left) 0 3 1 ⟨⟨0, 0⟩, EV_FF, 0, 0⟩ 1
      (by decide) (by decide) rfl).2 (by decide)⟩


/-! ## What a forwarded event must have passed -/

theorem written_allowed (opt : options) (src dst : Int) (rd : read_all_result input_event)
    (wrc : Int) (hr : input_event_in_range rd.buf) :
    ∀ w ∈ (validate_and_forward_event opt src dst rd wrc).written,
      w.1 = dst ∧ w.2.type = rd.buf.type ∧ w.2.code = rd.buf.code ∧
      bit_is_set opt.caps.evbit rd.buf.type = true ∧
      (rd.buf.type ≠ EV_SYN →
        bit_is_set (category_bitfield opt.caps rd.buf.type) rd.buf.code = true) := by
  obtain ⟨ht, hc, -, -⟩ := hr
  have hnil : ∀ r : Int, ∀ w ∈ (⟨r, []⟩ : fwd_result).written,
      w.1 = dst ∧ w.2.type = rd.buf.type ∧ w.2.code = rd.buf.code ∧
      bit_is_set opt.caps.evbit rd.buf.type = true ∧
      (rd.buf.type ≠ EV_SYN →
        bit_is_set (category_bitfield opt.caps rd.buf.type) rd.buf.code = true) :=
    fun r w hw => absurd hw (List.not_mem_nil w)
  have hcode : ∀ bf : List Nat, ¬ LONG_TEST_BIT bf (rd.buf.code : Int) = 0 →
      bit_is_set bf rd.buf.code = true := by
    intro bf hbf
    by_cases hb : bit_is_set bf rd.buf.code = true
    · exact hb
    · exact absurd ((LONG_TEST_BIT_eq_zero_iff bf _ (u16_lt_ulong hc)).2
        (Bool.eq_false_iff.2 hb)) hbf
  unfold validate_and_forward_event write_event
  dsimp only
  by_cases h0 : rd.rc = 0
  · rw [if_pos h0]; exact hnil _
  rw [if_neg h0]
  by_cases h1 : rd.rc = -1
  · rw [if_pos h1]; exact hnil _
  rw [if_neg h1]
  by_cases hev : LONG_TEST_BIT opt.caps.evbit (rd.buf.type : Int) = 0
  · rw [if_pos hev]; exact hnil _
  rw [if_neg hev]
  have hen : bit_is_set opt.caps.evbit rd.buf.type = true := by
    by_cases hb : bit_is_set opt.caps.evbit rd.buf.type = true
    · exact hb
    · exact absurd ((LONG_TEST_BIT_eq_zero_iff _ _ (u16_lt_ulong ht)).2
        (Bool.eq_false_iff.2 hb)) hev
  by_cases hsyn : rd.buf.type = EV_SYN
  · rw [if_pos hsyn]
    by_cases hs : rd.buf.code > SYN_MAX
    · rw [if_pos hs]; exact hnil _
    · rw [if_neg hs]
      intro w hw
      rw [List.mem_singleton.1 hw]
      exact ⟨rfl, rfl, rfl, hen, fun h => absurd hsyn h⟩
  rw [if_neg hsyn]
  by_cases hkeybit : rd.buf.type = EV_KEY
  · rw [if_pos hkeybit]
    by_cases hk : LONG_TEST_BIT opt.caps.keybit (rd.buf.code : Int) = 0
    · rw [if_pos hk]; exact hnil _
    · rw [if_neg hk]
      intro w hw
      rw [List.mem_singleton.1 hw]
      refine ⟨rfl, rfl, rfl, hen, fun _ => ?_⟩
      rw [hkeybit]
      exact hcode _ hk
  rw [if_neg hkeybit]
  by_cases hrelbit : rd.buf.type = EV_REL
  · rw [if_pos hrelbit]
    by_cases hk : LONG_TEST_BIT opt.caps.relbit (rd.buf.code : Int) = 0
    · rw [if_pos hk]; exact hnil _
    · rw [if_neg hk]
      intro w hw
      rw [List.mem_singleton.1 hw]
      refine ⟨rfl, rfl, rfl, hen, fun _ => ?_⟩
      rw [hrelbit]
      exact hcode _ hk
  rw [if_neg hrelbit]
  by_cases habsbit : rd.buf.type = EV_ABS
  · rw [if_pos habsbit]
    by_cases hk : LONG_TEST_BIT opt.caps.absbit (rd.buf.code : Int) = 0
    · rw [if_pos hk]; exact hnil _
    · rw [if_neg hk]
      intro w hw
      rw [List.mem_singleton.1 hw]
      refine ⟨rfl, rfl, rfl, hen, fun _ => ?_⟩
      rw [habsbit]
      exact hcode _ hk
  rw [if_neg habsbit]
  by_cases hmscbit : rd.buf.type = EV_MSC
  · rw [if_pos hmscbit]
    by_cases hk : LONG_TEST_BIT opt.caps.mscbit (rd.buf.code : Int) = 0
    · rw [if_pos hk]; exact hnil _
    · rw [if_neg hk]
      intro w hw
      rw [List.mem_singleton.1 hw]
      refine ⟨rfl, rfl, rfl, hen, fun _ => ?_⟩
      rw [hmscbit]
      exact hcode _ hk
  rw [if_neg hmscbit]
  by_cases hswbit : rd.buf.type = EV_SW
  · rw [if_pos hswbit]
    by_cases hk : LONG_TEST_BIT opt.caps.swbit (rd.buf.code : Int) = 0
    · rw [if_pos hk]; exact hnil _
    · rw [if_neg hk]
      intro w hw
      rw [List.mem_singleton.1 hw]
      refine ⟨rfl, rfl, rfl, hen, fun _ => ?_⟩
      rw [hswbit]
      exact hcode _ hk
  rw [if_neg hswbit]
  by_cases hledbit : rd.buf.type = EV_LED
  · rw [if_pos hledbit]
    by_cases hk : LONG_TEST_BIT opt.caps.ledbit (rd.buf.code : Int) = 0
    · rw [if_pos hk]; exact hnil _
    · rw [if_neg hk]
      intro w hw
      rw [List.mem_singleton.1 hw]
      refine ⟨rfl, rfl, rfl, hen, fun _ => ?_⟩
      rw [hledbit]
      exact hcode _ hk
  rw [if_neg hledbit]
  by_cases hsndbit : rd.buf.type = EV_SND
  · rw [if_pos hsndbit]
    by_cases hk : LONG_TEST_BIT opt.caps.sndbit (rd.buf.code : Int) = 0
    · rw [if_pos hk]; exact hnil _
    · rw [if_neg hk]
      intro w hw
      rw [List.mem_singleton.1 hw]
      refine ⟨rfl, rfl, rfl, hen, fun _ => ?_⟩
      rw [hsndbit]
      exact hcode _ hk
  rw [if_neg hsndbit]
  exact hnil _

theorem category_bitfield_subset (r p : input_proxy_device_caps) (h : caps_subset r p)
    (type : Nat) : bits_subset (category_bitfield r type) (category_bitfield p type) := by
  obtain ⟨-, -, hkey, hrel, habs, hmsc, hled, hsnd, hff, hsw⟩ := h
  unfold category_bitfield
  by_cases h1 : type = EV_KEY
  · rw [if_pos h1, if_pos h1]; exact hkey
  rw [if_neg h1, if_neg h1]
  by_cases h2 : type = EV_REL
  · rw [if_pos h2, if_pos h2]; exact hrel
  rw [if_neg h2, if_neg h2]
  by_cases h3 : type = EV_ABS
  · rw [if_pos h3, if_pos h3]; exact habs
  rw [if_neg h3, if_neg h3]
  by_cases h4 : type = EV_MSC
  · rw [if_pos h4, if_pos h4]; exact hmsc
  rw [if_neg h4, if_neg h4]
  by_cases h5 : type = EV_SW
  · rw [if_pos h5, if_pos h5]; exact hsw
  rw [if_neg h5, if_neg h5]
  by_cases h6 : type = EV_LED
  · rw [if_pos h6, if_pos h6]; exact hled
  rw [if_neg h6, if_neg h6]
  by_cases h7 : type = EV_SND
  · rw [if_pos h7, if_pos h7]; exact hsnd
  rw [if_neg h7, if_neg h7]
  by_cases h8 : type = EV_FF
  · rw [if_pos h8, if_pos h8]; exact hff
  rw [if_neg h8, if_neg h8]
  intro k hk
  exact hk

/-- C19 (end-to-end policy enforcement): if `receive_and_validate_caps` succeeds on a
policy P and a declared set D, and `validate_and_forward_event`, run with the negotiated
caps, writes an event, then the type bit of the written event is set in the original
`P.evbit` and, unless its type is EV_SYN, its code bit is set in the bitfield of the original
policy for the category of that type. -/
theorem end_to_end_policy (opt : options) (rd_hello : read_all_result input_proxy_hello)
    (rd_caps : read_all_result input_proxy_device_caps) (src dst : Int)
    (rd : read_all_result input_event) (wrc : Int) (w : Int × input_event)
    (hr : input_event_in_range rd.buf)
    (h : (receive_and_validate_caps opt rd_hello rd_caps).ret = 1)
    (hw : w ∈ (validate_and_forward_event
      (receive_and_validate_caps opt rd_hello rd_caps).opt src dst rd wrc).written) :
    bit_is_set opt.caps.evbit w.2.type = true ∧
    (w.2.type ≠ EV_SYN →
      bit_is_set (category_bitfield opt.caps w.2.type) w.2.code = true) := by
  obtain ⟨-, hty, hcd, hen, hcat⟩ := written_allowed _ src dst rd wrc hr w hw
  have hsub : caps_subset (receive_and_validate_caps opt rd_hello rd_caps).opt.caps
      opt.caps := by
    rw [receive_ret_one opt rd_hello rd_caps h]
    exact narrow_caps_subset opt.caps rd_caps.buf
  rw [hty, hcd]
  refine ⟨hsub.2.1 _ hen, fun hns => ?_⟩
  exact category_bitfield_subset _ _ hsub _ _ (hcat hns)

/-- Witness of C19: the policy {EV_KEY, BTN_LEFT}, an all-bits-set declaration, and a
BTN_LEFT press. -/
theorem end_to_end_policy_witness :
    bit_is_set (options_of caps_key_btn_left).caps.evbit EV_KEY = true ∧
    (EV_KEY ≠ EV_SYN →
      bit_is_set (category_bitfield (options_of caps_key_btn_left).caps EV_KEY) BTN_LEFT
        = true) :=
  end_to_end_policy (options_of caps_key_btn_left) ⟨1, hello_ok⟩ ⟨1, caps_all_ones⟩ 0 3
    ⟨1, ⟨⟨9, 9⟩, EV_KEY, BTN_LEFT, 1⟩⟩ 1 (3, ⟨⟨0, 0⟩, EV_KEY, BTN_LEFT, 1⟩)
    (by decide) (by decide) (by decide)

/-! ## The tablet option -/

/-- C18 fails on the code: with the policy `parse_options` builds from the single option
`--tablet`, whatever the declared capability set, after a successful negotiation no event of
type EV_ABS is ever written by `validate_and_forward_event`; `--tablet` enables EV_ABS in
`evbit` but leaves `absbit` empty. -/
theorem tablet_forwards_no_abs_event (rd_hello : read_all_result input_proxy_hello)
    (rd_caps : read_all_result input_proxy_device_caps) (src dst : Int)
    (rd : read_all_result input_event) (wrc : Int)
    (hr : input_event_in_range rd.buf) (hty : rd.buf.type = EV_ABS)
    (h : (receive_and_validate_caps (parse_options [arg_tablet]).opt rd_hello rd_caps).ret
      = 1) :
    (validate_and_forward_event
      (receive_and_validate_caps (parse_options [arg_tablet]).opt rd_hello rd_caps).opt
      src dst rd wrc).written = [] := by
  apply List.eq_nil_iff_forall_not_mem.2
  intro w hw
  obtain ⟨-, -, -, -, hcat⟩ := written_allowed _ src dst rd wrc hr w hw
  have hsub : caps_subset
      (receive_and_validate_caps (parse_options [arg_tablet]).opt rd_hello rd_caps).opt.caps
      (parse_options [arg_tablet]).opt.caps := by
    rw [receive_ret_one _ rd_hello rd_caps h]
    exact narrow_caps_subset _ rd_caps.buf
  have hp := category_bitfield_subset _ _ hsub rd.buf.type _ (hcat (by rw [hty]; decide))
  rw [hty] at hp
  have hz : category_bitfield (parse_options [arg_tablet]).opt.caps EV_ABS = [0] := by
    decide
  rw [hz] at hp
  have hf : bit_is_set [0] rd.buf.code = false :=
    bit_is_set_of_all_zero [0] (fun w hw => List.mem_singleton.1 hw) _
  rw [hf] at hp
  exact Bool.noConfusion hp

/-- Witness of the theorem on C18: `--tablet`, an all-bits-set declaration, and the event
{EV_ABS, 0, 100}: it is dropped. -/
theorem tablet_forwards_no_abs_event_witness :
    (validate_and_forward_event
      (receive_and_validate_caps (parse_options [arg_tablet]).opt ⟨1, hello_ok⟩
        ⟨1, caps_all_ones⟩).opt 0 3 ⟨1, ⟨⟨0, 0⟩, EV_ABS, 0, 100⟩⟩ 1).written = [] :=
  tablet_forwards_no_abs_event ⟨1, hello_ok⟩ ⟨1, caps_all_ones⟩ 0 3
    ⟨1, ⟨⟨0, 0⟩, EV_ABS, 0, 100⟩⟩ 1 (by decide) rfl (by decide)


/-! ## Forwarded and registered codes -/

set_option maxRecDepth 100000 in
/-- C20 fails on the code: with the policy of `--mouse` and an all-bits-set declaration,
negotiation succeeds and registration succeeds without any `UI_SET_RELBIT` call for code 16
(`REL_CNT` is 16), yet the event {EV_REL, 16, 1} is forwarded to the virtual device. -/
theorem mouse_forwards_unregistered_code :
    (receive_and_validate_caps (parse_options [arg_mouse]).opt ⟨1, hello_ok⟩
      ⟨1, caps_all_ones⟩).ret = 1 ∧
    (register_device (receive_and_validate_caps (parse_options [arg_mouse]).opt
      ⟨1, hello_ok⟩ ⟨1, caps_all_ones⟩).opt 3 ioctl_ok 1).ret = 0 ∧
    uinput_call.ioctl ioctl_request.UI_SET_RELBIT 16 ∉
      (register_device (receive_and_validate_caps (parse_options [arg_mouse]).opt
        ⟨1, hello_ok⟩ ⟨1, caps_all_ones⟩).opt 3 ioctl_ok 1).calls ∧
    validate_and_forward_event (receive_and_validate_caps (parse_options [arg_mouse]).opt
      ⟨1, hello_ok⟩ ⟨1, caps_all_ones⟩).opt 0 3 ⟨1, ⟨⟨0, 0⟩, EV_REL, 16, 1⟩⟩ 1
      = ⟨1, [(3, ⟨⟨0, 0⟩, EV_REL, 16, 1⟩)]⟩ := by
  decide

/-! ## Lemmas on registration -/

theorem word_test_iff (bits : List Nat) (i : Nat) :
    (bits.getD (i / BITS_PER_LONG) 0 &&& (1 <<< (i &&& (BITS_PER_LONG - 1))) ≠ 0)
      ↔ bit_is_set bits i = true := by
  rw [and_63_eq_mod]
  exact and_one_shiftLeft_ne_zero _ _

theorem send_bits_loop_ok (ioctl_rc : ioctl_request → Nat → Int) (request : ioctl_request)
    (hok : ∀ a, ioctl_rc request a ≠ -1) (bits : List Nat) (n i : Nat) :
    send_bits_loop ioctl_rc request bits i n
      = ⟨0, ((List.range' i n).filter (fun j => bit_is_set bits j)).map
          (uinput_call.ioctl request)⟩ := by
  induction n generalizing i with
  | zero => rfl
  | succ n ih =>
    rw [send_bits_loop, List.range'_succ, List.filter_cons]
    by_cases hb : bit_is_set bits i = true
    · rw [if_pos ((word_test_iff bits i).2 hb), if_neg (hok i), ih (i + 1), if_pos hb]
      rfl
    · rw [if_neg (fun h => hb ((word_test_iff bits i).1 h)), ih (i + 1), if_neg hb]

theorem count_registration (request request' : ioctl_request) (p : Nat → Bool)
    (n i a : Nat) :
    (((List.range' i n).filter p).map (uinput_call.ioctl request)).count
        (uinput_call.ioctl request' a)
      = if request = request' ∧ i ≤ a ∧ a < i + n ∧ p a = true then 1 else 0 := by
  induction n generalizing i with
  | zero =>
    have : ¬ (request = request' ∧ i ≤ a ∧ a < i + 0 ∧ p a = true) := by
      rintro ⟨-, h1, h2, -⟩; omega
    rw [if_neg this]; rfl
  | succ n ih =>
    rw [List.range'_succ, List.filter_cons]
    by_cases hp : p i = true
    · rw [if_pos hp, List.map_cons, List.count_cons, ih (i + 1)]
      by_cases hr : request = request'
      · subst hr
        by_cases hia : i = a
        · subst hia
          have h1 : ¬ (request = request ∧ i + 1 ≤ i ∧ i < i + 1 + n ∧ p i = true) := by
            rintro ⟨-, h, -, -⟩; omega
          have h2 : request = request ∧ i ≤ i ∧ i < i + (n + 1) ∧ p i = true :=
            ⟨rfl, Nat.le_refl _, by omega, hp⟩
          rw [if_neg h1, if_pos h2]
          simp
        · have hne : (uinput_call.ioctl request i == uinput_call.ioctl request a) = false := by
            rw [beq_eq_false_iff_ne]
            intro h
            injection h with _ h'
            exact hia h'
          rw [hne]
          by_cases hc : request = request ∧ i + 1 ≤ a ∧ a < i + 1 + n ∧ p a = true
          · have hc' : request = request ∧ i ≤ a ∧ a < i + (n + 1) ∧ p a = true :=
              ⟨rfl, by omega, by omega, hc.2.2.2⟩
            rw [if_pos hc, if_pos hc']; rfl
          · have hc' : ¬ (request = request ∧ i ≤ a ∧ a < i + (n + 1) ∧ p a = true) := by
              rintro ⟨-, h1, h2, h3⟩
              exact hc ⟨rfl, by omega, by omega, h3⟩
            rw [if_neg hc, if_neg hc']; rfl
      · have hne : (uinput_call.ioctl request i == uinput_call.ioctl request' a) = false := by
          rw [beq_eq_false_iff_ne]
          intro h
          injection h with h' _
          exact hr h'
        have e1 : ¬ (request = request' ∧ i + 1 ≤ a ∧ a < i + 1 + n ∧ p a = true) :=
          fun h => hr h.1
        have e2 : ¬ (request = request' ∧ i ≤ a ∧ a < i + (n + 1) ∧ p a = true) :=
          fun h => hr h.1
        rw [hne, if_neg e1, if_neg e2]; rfl
    · rw [if_neg hp, ih (i + 1)]
      by_cases hc : request = request' ∧ i + 1 ≤ a ∧ a < i + 1 + n ∧ p a = true
      · have hc' : request = request' ∧ i ≤ a ∧ a < i + (n + 1) ∧ p a = true :=
          ⟨hc.1, by omega, by omega, hc.2.2.2⟩
        rw [if_pos hc, if_pos hc']
      · have hc' : ¬ (request = request' ∧ i ≤ a ∧ a < i + (n + 1) ∧ p a = true) := by
          rintro ⟨h0, h1, h2, h3⟩
          have hia : i ≠ a := fun h => hp (h ▸ h3)
          exact hc ⟨h0, by omega, by omega, h3⟩
        rw [if_neg hc, if_neg hc']

theorem count_registration_calls (request request' : ioctl_request) (enabled : Bool)
    (bits : List Nat) (n a : Nat) :
    (registration_calls request enabled bits n).count (uinput_call.ioctl request' a)
      = if request = request' ∧ enabled = true ∧ a < n ∧ bit_is_set bits a = true
        then 1 else 0 := by
  unfold registration_calls
  by_cases he : enabled = true
  · rw [if_pos he, count_registration]
    by_cases hc : request = request' ∧ 0 ≤ a ∧ a < 0 + n ∧ bit_is_set bits a = true
    · rw [if_pos hc, if_pos ⟨hc.1, he, by omega, hc.2.2.2⟩]
    · rw [if_neg hc, if_neg (fun h => hc ⟨h.1, Nat.zero_le _, by omega, h.2.2.2⟩)]
  · rw [if_neg he, if_neg (fun h => he h.2.1)]
    rfl

theorem register_step_ok (fd : Int) (ioctl_rc : ioctl_request → Nat → Int)
    (request : ioctl_request) (hok : ∀ a, ioctl_rc request a ≠ -1)
    (calls : List uinput_call) (enabled : Bool) (bits : List Nat) (n : Nat) :
    register_step fd ioctl_rc ⟨0, calls⟩ enabled request bits n
      = ⟨0, calls ++ registration_calls request enabled bits n⟩ := by
  unfold register_step registration_calls send_bits
  by_cases he : enabled = true
  · rw [if_pos ⟨rfl, he⟩, if_pos he, send_bits_loop_ok ioctl_rc request hok]
  · rw [if_neg (fun h => he h.2), if_neg he, List.append_nil]

theorem enabled_test_eq (evbit : List Nat) (k : Nat) (hk : k < 18446744073709551616) :
    (LONG_TEST_BIT evbit (k : Int) != 0) = bit_is_set evbit k := by
  rw [LONG_TEST_BIT_eq evbit k hk]
  by_cases hb : bit_is_set evbit k = true
  · rw [if_pos hb, hb]; rfl
  · rw [if_neg hb, Bool.eq_false_iff.2 hb]; rfl

theorem register_bits_ok (opt : options) (fd : Int) (ioctl_rc : ioctl_request → Nat → Int)
    (hok : ∀ r a, r ≠ ioctl_request.UI_DEV_CREATE → ioctl_rc r a ≠ -1) :
    register_bits opt fd ioctl_rc
      = ⟨0, registration_calls ioctl_request.UI_SET_EVBIT true opt.caps.evbit EV_CNT
          ++ registration_calls ioctl_request.UI_SET_KEYBIT
              (bit_is_set opt.caps.evbit EV_KEY) opt.caps.keybit KEY_CNT
          ++ registration_calls ioctl_request.UI_SET_RELBIT
              (bit_is_set opt.caps.evbit EV_REL) opt.caps.relbit REL_CNT
          ++ registration_calls ioctl_request.UI_SET_ABSBIT
              (bit_is_set opt.caps.evbit EV_ABS) opt.caps.absbit ABS_CNT
          ++ registration_calls ioctl_request.UI_SET_MSCBIT
              (bit_is_set opt.caps.evbit EV_MSC) opt.caps.mscbit MSC_CNT
          ++ registration_calls ioctl_request.UI_SET_LEDBIT
              (bit_is_set opt.caps.evbit EV_LED) opt.caps.ledbit LED_CNT
          ++ registration_calls ioctl_request.UI_SET_SNDBIT
              (bit_is_set opt.caps.evbit EV_SND) opt.caps.sndbit SND_CNT
          ++ registration_calls ioctl_request.UI_SET_FFBIT
              (bit_is_set opt.caps.evbit EV_FF) opt.caps.ffbit FF_CNT
          ++ registration_calls ioctl_request.UI_SET_SWBIT
              (bit_is_set opt.caps.evbit EV_SW) opt.caps.swbit SW_CNT⟩ := by
  unfold register_bits
  simp only [
    register_step_ok fd ioctl_rc ioctl_request.UI_SET_EVBIT (fun a => hok _ a (by decide)),
    register_step_ok fd ioctl_rc ioctl_request.UI_SET_KEYBIT (fun a => hok _ a (by decide)),
    register_step_ok fd ioctl_rc ioctl_request.UI_SET_RELBIT (fun a => hok _ a (by decide)),
    register_step_ok fd ioctl_rc ioctl_request.UI_SET_ABSBIT (fun a => hok _ a (by decide)),
    register_step_ok fd ioctl_rc ioctl_request.UI_SET_MSCBIT (fun a => hok _ a (by decide)),
    register_step_ok fd ioctl_rc ioctl_request.UI_SET_LEDBIT (fun a => hok _ a (by decide)),
    register_step_ok fd ioctl_rc ioctl_request.UI_SET_SNDBIT (fun a => hok _ a (by decide)),
    register_step_ok fd ioctl_rc ioctl_request.UI_SET_FFBIT (fun a => hok _ a (by decide)),
    register_step_ok fd ioctl_rc ioctl_request.UI_SET_SWBIT (fun a => hok _ a (by decide)),
    List.nil_append,
    enabled_test_eq _ EV_KEY (by decide), enabled_test_eq _ EV_REL (by decide),
    enabled_test_eq _ EV_ABS (by decide), enabled_test_eq _ EV_MSC (by decide),
    enabled_test_eq _ EV_LED (by decide), enabled_test_eq _ EV_SND (by decide),
    enabled_test_eq _ EV_FF (by decide), enabled_test_eq _ EV_SW (by decide)]

/-! ## Registration: the claims -/

set_option maxRecDepth 100000 in
/-- C12, as stated, fails: with the policy of `--keyboard` narrowed by an all-bits-set
declaration, EV_LED is enabled and bit 16 of `ledbit` is set, every registration call
succeeds, and yet `register_device` issues no `UI_SET_LEDBIT` call for bit 16: `send_bits`
stops at `LED_CNT`, which is 16. -/
theorem set_bit_past_count_not_registered :
    bit_is_set (receive_and_validate_caps (parse_options [arg_keyboard]).opt ⟨1, hello_ok⟩
      ⟨1, caps_all_ones⟩).opt.caps.evbit EV_LED = true ∧
    bit_is_set (receive_and_validate_caps (parse_options [arg_keyboard]).opt ⟨1, hello_ok⟩
      ⟨1, caps_all_ones⟩).opt.caps.ledbit 16 = true ∧
    (register_device (receive_and_validate_caps (parse_options [arg_keyboard]).opt
      ⟨1, hello_ok⟩ ⟨1, caps_all_ones⟩).opt 3 ioctl_ok 1).ret = 0 ∧
    (register_device (receive_and_validate_caps (parse_options [arg_keyboard]).opt
      ⟨1, hello_ok⟩ ⟨1, caps_all_ones⟩).opt 3 ioctl_ok 1).calls.count
        (uinput_call.ioctl ioctl_request.UI_SET_LEDBIT 16) = 0 := by
  decide

/-- C12, amended: when all registration calls succeed, `register_device` issues exactly one
`UI_SET_EVBIT` call for every bit set in `caps.evbit` below `EV_CNT` and, for each of the
eight categories whose enabling bit is set in `evbit`, exactly one call with the category's
request for every bit set in the category's bitfield below the category's count; it issues
no call for an unset bit, for a bit at or past the count, or for a category whose enabling
bit is unset. -/
theorem registration_exact (opt : options) (fd : Int)
    (ioctl_rc : ioctl_request → Nat → Int) (dev_wrc : Int)
    (hok : ∀ r a, r ≠ ioctl_request.UI_DEV_CREATE → ioctl_rc r a ≠ -1)
    (request : ioctl_request) (i : Nat) (hreq : request ≠ ioctl_request.UI_DEV_CREATE) :
    (register_device opt fd ioctl_rc dev_wrc).calls.count (uinput_call.ioctl request i)
      = if registration_expected opt.caps request i = true then 1 else 0 := by
  have htail1 : ∀ dev, [uinput_call.write_all dev].count (uinput_call.ioctl request i) = 0 := by
    intro dev
    rw [List.count_eq_zero]
    intro h
    have := List.mem_singleton.1 h
    exact uinput_call.noConfusion this
  have htail2 : ∀ dev, [uinput_call.write_all dev,
      uinput_call.ioctl ioctl_request.UI_DEV_CREATE 0].count (uinput_call.ioctl request i)
        = 0 := by
    intro dev
    rw [List.count_eq_zero]
    intro h
    rcases List.mem_cons.1 h with h | h
    · exact uinput_call.noConfusion h
    · have := List.mem_singleton.1 h
      injection this with h1 _
      exact hreq h1
  unfold register_device
  rw [register_bits_ok opt fd ioctl_rc hok]
  dsimp only
  rw [if_neg (by decide)]
  have hcount : ∀ tail : List uinput_call, tail.count (uinput_call.ioctl request i) = 0 →
      ((registration_calls ioctl_request.UI_SET_EVBIT true opt.caps.evbit EV_CNT
          ++ registration_calls ioctl_request.UI_SET_KEYBIT
              (bit_is_set opt.caps.evbit EV_KEY) opt.caps.keybit KEY_CNT
          ++ registration_calls ioctl_request.UI_SET_RELBIT
              (bit_is_set opt.caps.evbit EV_REL) opt.caps.relbit REL_CNT
          ++ registration_calls ioctl_request.UI_SET_ABSBIT
              (bit_is_set opt.caps.evbit EV_ABS) opt.caps.absbit ABS_CNT
          ++ registration_calls ioctl_request.UI_SET_MSCBIT
              (bit_is_set opt.caps.evbit EV_MSC) opt.caps.mscbit MSC_CNT
          ++ registration_calls ioctl_request.UI_SET_LEDBIT
              (bit_is_set opt.caps.evbit EV_LED) opt.caps.ledbit LED_CNT
          ++ registration_calls ioctl_request.UI_SET_SNDBIT
              (bit_is_set opt.caps.evbit EV_SND) opt.caps.sndbit SND_CNT
          ++ registration_calls ioctl_request.UI_SET_FFBIT
              (bit_is_set opt.caps.evbit EV_FF) opt.caps.ffbit FF_CNT
          ++ registration_calls ioctl_request.UI_SET_SWBIT
              (bit_is_set opt.caps.evbit EV_SW) opt.caps.swbit SW_CNT) ++ tail).count
        (uinput_call.ioctl request i)
        = if registration_expected opt.caps request i = true then 1 else 0 := by
    intro tail ht
    simp only [List.count_append, count_registration_calls, ht]
    cases request <;> simp [registration_expected] at hreq ⊢
  by_cases hw : dev_wrc = -1
  · rw [if_pos hw]
    exact hcount _ (htail1 _)
  · rw [if_neg hw]
    by_cases hc : ioctl_rc ioctl_request.UI_DEV_CREATE 0 = -1
    · rw [if_pos hc]
      exact hcount _ (htail2 _)
    · rw [if_neg hc]
      exact hcount _ (htail2 _)

/-- Witness of amended C12: for the policy {EV_KEY, BTN_LEFT} there is exactly one
`UI_SET_KEYBIT` call for BTN_LEFT. -/
theorem registration_exact_witness :
    (register_device (options_of caps_key_btn_left) 3 ioctl_ok 1).calls.count
        (uinput_call.ioctl ioctl_request.UI_SET_KEYBIT BTN_LEFT)
      = if registration_expected (options_of caps_key_btn_left).caps
          ioctl_request.UI_SET_KEYBIT BTN_LEFT = true then 1 else 0 :=
  registration_exact (options_of caps_key_btn_left) 3 ioctl_ok 1
    (fun _ _ _ => (by decide : (0 : Int) ≠ -1)) ioctl_request.UI_SET_KEYBIT BTN_LEFT (by decide)


/-! ## Registration failure -/

theorem registration_ok_not_failed (ioctl_rc : ioctl_request → Nat → Int) (c : uinput_call)
    (hok : registration_ok ioctl_rc c) (hf : registration_failed ioctl_rc c) : False := by
  obtain ⟨r, a, hc, -, h1⟩ := hok
  obtain ⟨r', a', hc', -, h2⟩ := hf
  rw [hc] at hc'
  injection hc' with hr ha
  subst hr; subst ha
  exact h1 h2

theorem send_bits_loop_run (ioctl_rc : ioctl_request → Nat → Int) (request : ioctl_request)
    (hreq : request ≠ ioctl_request.UI_DEV_CREATE) (bits : List Nat) (n i : Nat) :
    registration_run ioctl_rc (send_bits_loop ioctl_rc request bits i n) := by
  induction n generalizing i with
  | zero =>
    left
    exact ⟨rfl, fun x hx => absurd hx (List.not_mem_nil x)⟩
  | succ n ih =>
    rw [send_bits_loop]
    by_cases hb : bits.getD (i / BITS_PER_LONG) 0 &&& (1 <<< (i &&& (BITS_PER_LONG - 1))) ≠ 0
    · rw [if_pos hb]
      by_cases hfail : ioctl_rc request i = -1
      · rw [if_pos hfail]
        right
        exact ⟨rfl, [], _, rfl, ⟨request, i, rfl, hreq, hfail⟩,
          fun x hx => absurd hx (List.not_mem_nil x)⟩
      · rw [if_neg hfail]
        have hok : registration_ok ioctl_rc (uinput_call.ioctl request i) :=
          ⟨request, i, rfl, hreq, hfail⟩
        rcases ih (i + 1) with ⟨h0, hall⟩ | ⟨h1, pre, c, hcalls, hc, hpre⟩
        · left
          refine ⟨h0, fun x hx => ?_⟩
          rcases List.mem_cons.1 hx with hx | hx
          · rw [hx]; exact hok
          · exact hall x hx
        · right
          refine ⟨h1, uinput_call.ioctl request i :: pre, c, ?_, hc, fun x hx => ?_⟩
          · show uinput_call.ioctl request i ::
                (send_bits_loop ioctl_rc request bits (i + 1) n).calls = _
            rw [hcalls]; rfl
          · rcases List.mem_cons.1 hx with hx | hx
            · rw [hx]; exact hok
            · exact hpre x hx
    · rw [if_neg hb]
      exact ih (i + 1)

theorem register_step_run (fd : Int) (ioctl_rc : ioctl_request → Nat → Int)
    (st : reg_result) (hst : registration_run ioctl_rc st) (enabled : Bool)
    (request : ioctl_request) (hreq : request ≠ ioctl_request.UI_DEV_CREATE)
    (bits : List Nat) (n : Nat) :
    registration_run ioctl_rc (register_step fd ioctl_rc st enabled request bits n) := by
  unfold register_step
  by_cases hc : st.ret = 0 ∧ enabled = true
  · rw [if_pos hc]
    have hall : ∀ x ∈ st.calls, registration_ok ioctl_rc x := by
      rcases hst with ⟨-, hall⟩ | ⟨h1, -⟩
      · exact hall
      · rw [hc.1] at h1; exact absurd h1 (by decide)
    rcases send_bits_loop_run ioctl_rc request hreq bits n 0 with
      ⟨h0, hr⟩ | ⟨h1, pre, c, hcalls, hcf, hpre⟩
    · left
      refine ⟨h0, fun x hx => ?_⟩
      rcases List.mem_append.1 hx with hx | hx
      · exact hall x hx
      · exact hr x hx
    · right
      refine ⟨h1, st.calls ++ pre, c, ?_, hcf, fun x hx => ?_⟩
      · show st.calls ++ (send_bits_loop ioctl_rc request bits 0 n).calls = _
        rw [hcalls, List.append_assoc]
      · rcases List.mem_append.1 hx with hx | hx
        · exact hall x hx
        · exact hpre x hx
  · rw [if_neg hc]
    exact hst

theorem register_bits_run (opt : options) (fd : Int)
    (ioctl_rc : ioctl_request → Nat → Int) :
    registration_run ioctl_rc (register_bits opt fd ioctl_rc) := by
  unfold register_bits
  dsimp only
  have h0 : registration_run ioctl_rc ⟨0, []⟩ :=
    Or.inl ⟨rfl, fun x hx => absurd hx (List.not_mem_nil x)⟩
  refine register_step_run _ _ _ ?_ _ _ (by decide) _ _
  refine register_step_run _ _ _ ?_ _ _ (by decide) _ _
  refine register_step_run _ _ _ ?_ _ _ (by decide) _ _
  refine register_step_run _ _ _ ?_ _ _ (by decide) _ _
  refine register_step_run _ _ _ ?_ _ _ (by decide) _ _
  refine register_step_run _ _ _ ?_ _ _ (by decide) _ _
  refine register_step_run _ _ _ ?_ _ _ (by decide) _ _
  refine register_step_run _ _ _ ?_ _ _ (by decide) _ _
  exact register_step_run _ _ _ h0 _ _ (by decide) _ _

/-- C13 (registration failure is never exposed as a device): whatever the `ioctl` calls
return, if a registration call issued by `register_device` fails, the function returns -1
and its calls are: registration calls that succeeded, the failed call, then `close` only;
so no further registration call, no descriptor write and no `UI_DEV_CREATE`. Conversely, if
`UI_DEV_CREATE` is issued, the descriptor write did not fail and the calls are: registration
calls that all succeeded, the descriptor write, then `UI_DEV_CREATE`. -/
theorem registration_failure_not_exposed (opt : options) (fd : Int)
    (ioctl_rc : ioctl_request → Nat → Int) (dev_wrc : Int) :
    ((∃ c ∈ (register_device opt fd ioctl_rc dev_wrc).calls, registration_failed ioctl_rc c) →
      (register_device opt fd ioctl_rc dev_wrc).ret = -1 ∧
      ∃ pre c, (register_device opt fd ioctl_rc dev_wrc).calls
          = pre ++ [c, uinput_call.close] ∧
        registration_failed ioctl_rc c ∧ ∀ x ∈ pre, registration_ok ioctl_rc x) ∧
    (uinput_call.ioctl ioctl_request.UI_DEV_CREATE 0
        ∈ (register_device opt fd ioctl_rc dev_wrc).calls →
      dev_wrc ≠ -1 ∧
      ∃ pre, (register_device opt fd ioctl_rc dev_wrc).calls
          = pre ++ [uinput_call.write_all (device_descriptor opt),
              uinput_call.ioctl ioctl_request.UI_DEV_CREATE 0] ∧
        ∀ x ∈ pre, registration_ok ioctl_rc x) := by
  have hcreate_ok : ¬ registration_ok ioctl_rc
      (uinput_call.ioctl ioctl_request.UI_DEV_CREATE 0) := by
    rintro ⟨r, a, hc, hr, -⟩
    injection hc with h1 _
    exact hr h1.symm
  have hcreate_failed : ¬ registration_failed ioctl_rc
      (uinput_call.ioctl ioctl_request.UI_DEV_CREATE 0) := by
    rintro ⟨r, a, hc, hr, -⟩
    injection hc with h1 _
    exact hr h1.symm
  have hwrite_failed : ∀ dev, ¬ registration_failed ioctl_rc (uinput_call.write_all dev) := by
    rintro dev ⟨r, a, hc, -, -⟩
    exact uinput_call.noConfusion hc
  unfold register_device
  dsimp only
  rcases register_bits_run opt fd ioctl_rc with ⟨h0, hall⟩ | ⟨h1, pre, c, hcalls, hcf, hpre⟩
  · have hne : ¬ (register_bits opt fd ioctl_rc).ret = -1 := by rw [h0]; decide
    rw [if_neg hne]
    by_cases hw : dev_wrc = -1
    · simp only [if_pos hw]
      constructor
      · rintro ⟨x, hx, hxf⟩
        rcases List.mem_append.1 hx with hx | hx
        · exact absurd hxf (fun h => registration_ok_not_failed _ _ (hall x hx) h)
        · rw [List.mem_singleton.1 hx] at hxf
          exact absurd hxf (hwrite_failed _)
      · intro hx
        rcases List.mem_append.1 hx with hx | hx
        · exact absurd (hall _ hx) hcreate_ok
        · exact uinput_call.noConfusion (List.mem_singleton.1 hx)
    · simp only [if_neg hw]
      have hboth : ∀ r : Int,
          ((∃ c ∈ ((⟨r, (register_bits opt fd ioctl_rc).calls ++
                [uinput_call.write_all (device_descriptor opt),
                  uinput_call.ioctl ioctl_request.UI_DEV_CREATE 0]⟩ : reg_result)).calls,
              registration_failed ioctl_rc c) → False) := by
        rintro r ⟨x, hx, hxf⟩
        rcases List.mem_append.1 hx with hx | hx
        · exact registration_ok_not_failed _ _ (hall x hx) hxf
        · rcases List.mem_cons.1 hx with hx | hx
          · rw [hx] at hxf; exact hwrite_failed _ hxf
          · rw [List.mem_singleton.1 hx] at hxf; exact hcreate_failed hxf
      by_cases hc : ioctl_rc ioctl_request.UI_DEV_CREATE 0 = -1
      · simp only [if_pos hc]
        exact ⟨fun h => (hboth 0 h).elim, fun _ => ⟨hw, _, rfl, hall⟩⟩
      · simp only [if_neg hc]
        exact ⟨fun h => (hboth 0 h).elim, fun _ => ⟨hw, _, rfl, hall⟩⟩
  · rw [if_pos h1]
    constructor
    · intro _
      refine ⟨rfl, pre, c, ?_, hcf, hpre⟩
      show (register_bits opt fd ioctl_rc).calls ++ [uinput_call.close] = _
      rw [hcalls, List.append_assoc]
      rfl
    · intro hx
      exfalso
      have hx' : uinput_call.ioctl ioctl_request.UI_DEV_CREATE 0 ∈
          (register_bits opt fd ioctl_rc).calls ++ [uinput_call.close] := hx
      rw [hcalls] at hx'
      rcases List.mem_append.1 hx' with hx' | hx'
      · rcases List.mem_append.1 hx' with hx' | hx'
        · exact hcreate_ok (hpre _ hx')
        · rw [← List.mem_singleton.1 hx'] at hcf
          exact hcreate_failed hcf
      · exact uinput_call.noConfusion (List.mem_singleton.1 hx')

set_option maxRecDepth 100000 in
/-- Witness of C13: the policy {EV_KEY, BTN_LEFT} with the `UI_SET_KEYBIT` call for
BTN_LEFT failing: the calls are the `UI_SET_EVBIT` call for EV_KEY, the failed call, `close`. -/
theorem registration_failure_not_exposed_witness :
    (register_device (options_of caps_key_btn_left) 3 ioctl_btn_left_fails 1).ret = -1 ∧
    ∃ pre c, (register_device (options_of caps_key_btn_left) 3 ioctl_btn_left_fails 1).calls
        = pre ++ [c, uinput_call.close] ∧
      registration_failed ioctl_btn_left_fails c ∧
      ∀ x ∈ pre, registration_ok ioctl_btn_left_fails x :=
  (registration_failure_not_exposed (options_of caps_key_btn_left) 3
    ioctl_btn_left_fails 1).1
    ⟨uinput_call.ioctl ioctl_request.UI_SET_KEYBIT BTN_LEFT, by decide,
      ioctl_request.UI_SET_KEYBIT, BTN_LEFT, rfl, by decide, by decide⟩


/-! ## The forwarding loop and the exit status -/

theorem fate_shared_nil (ret : Option Int) : fate_shared [] ret := by
  intro pre s post h
  exact absurd h (by simp)

theorem fate_shared_cons (s : service) (l : List service) (ret : Option Int)
    (hs : 0 < s.result.ret) (h : fate_shared l ret) : fate_shared (s :: l) ret := by
  intro pre x post heq hx
  cases pre with
  | nil =>
    rw [List.nil_append] at heq
    injection heq with h1 _
    rw [← h1] at hx
    omega
  | cons p pre' =>
    rw [List.cons_append] at heq
    injection heq with _ h2
    exact h pre' x post h2 hx

theorem fate_shared_last (s : service) : fate_shared [s] (some s.result.ret) := by
  intro pre x post heq _
  cases pre with
  | nil =>
    rw [List.nil_append] at heq
    injection heq with h1 h2
    rw [← h1, ← h2]
    exact ⟨rfl, rfl⟩
  | cons p pre' =>
    rw [List.cons_append] at heq
    injection heq with _ h2
    exact absurd h2 (by simp)

theorem sublist_both (fd : Int) (a b : service) (ha : (a.src, a.dst) = ((0 : Int), fd))
    (hb : (b.src, b.dst) = (fd, (1 : Int))) :
    List.Sublist ([a, b].map (fun s => (s.src, s.dst))) [((0 : Int), fd), (fd, (1 : Int))] := by
  rw [List.map_cons, List.map_cons, List.map_nil, ha, hb]

theorem sublist_first (fd : Int) (a : service) (ha : (a.src, a.dst) = ((0 : Int), fd)) :
    List.Sublist ([a].map (fun s => (s.src, s.dst))) [((0 : Int), fd), (fd, (1 : Int))] := by
  rw [List.map_cons, List.map_nil, ha]
  exact List.Sublist.cons₂ _ (List.nil_sublist _)

theorem sublist_second (fd : Int) (b : service) (hb : (b.src, b.dst) = (fd, (1 : Int))) :
    List.Sublist ([b].map (fun s => (s.src, s.dst))) [((0 : Int), fd), (fd, (1 : Int))] := by
  rw [List.map_cons, List.map_nil, hb]
  exact List.Sublist.cons _ (List.Sublist.cons₂ _ (List.nil_sublist _))

/-- C14 (fate-sharing): in the run of `process_events`, a call of
`validate_and_forward_event`, in either direction, that returned 0 or -1 is the last call
issued, and its return value is what `process_events` returned; and after every return of
`poll` at most one event is serviced from the peer to the device and then at most one from
the device to the peer. -/
theorem fate_sharing (opt : options) (fd : Int) (rounds : List poll_round) :
    fate_shared (process_events opt fd rounds).rounds.flatten
      (process_events opt fd rounds).ret ∧
    ∀ b ∈ (process_events opt fd rounds).rounds,
      List.Sublist (b.map (fun s => (s.src, s.dst))) [((0 : Int), fd), (fd, (1 : Int))] := by
  induction rounds with
  | nil =>
    exact ⟨fate_shared_nil _, fun b hb => absurd hb (List.not_mem_nil b)⟩
  | cons r rest ih =>
    obtain ⟨ih1, ih2⟩ := ih
    rw [process_events]
    dsimp only
    by_cases hrc : r.rc > 0
    · rw [if_pos hrc]
      by_cases h0 : r.revents0 ≠ 0
      · rw [if_pos h0]
        by_cases hs0 : (validate_and_forward_event opt 0 fd r.rd0 r.wrc0).ret ≤ 0
        · rw [if_pos hs0]
          refine ⟨fate_shared_last _, fun b hb => ?_⟩
          rw [List.mem_singleton.1 hb]
          exact sublist_first fd _ rfl
        · rw [if_neg hs0]
          by_cases h1 : r.revents1 ≠ 0
          · rw [if_pos h1]
            by_cases hs1 : (validate_and_forward_event opt fd 1 r.rd1 r.wrc1).ret ≤ 0
            · rw [if_pos hs1]
              refine ⟨fate_shared_cons _ _ _ (Int.not_le.1 hs0) (fate_shared_last _),
                fun b hb => ?_⟩
              rw [List.mem_singleton.1 hb]
              exact sublist_both fd _ _ rfl rfl
            · rw [if_neg hs1]
              refine ⟨fate_shared_cons _ _ _ (Int.not_le.1 hs0)
                (fate_shared_cons _ _ _ (Int.not_le.1 hs1) ih1), fun b hb => ?_⟩
              rcases List.mem_cons.1 hb with hb | hb
              · rw [hb]; exact sublist_both fd _ _ rfl rfl
              · exact ih2 b hb
          · rw [if_neg h1]
            refine ⟨fate_shared_cons _ _ _ (Int.not_le.1 hs0) ih1, fun b hb => ?_⟩
            rcases List.mem_cons.1 hb with hb | hb
            · rw [hb]; exact sublist_first fd _ rfl
            · exact ih2 b hb
      · rw [if_neg h0]
        by_cases h1 : r.revents1 ≠ 0
        · rw [if_pos h1]
          by_cases hs1 : (validate_and_forward_event opt fd 1 r.rd1 r.wrc1).ret ≤ 0
          · rw [if_pos hs1]
            refine ⟨fate_shared_last _, fun b hb => ?_⟩
            rw [List.mem_singleton.1 hb]
            exact sublist_second fd _ rfl
          · rw [if_neg hs1]
            refine ⟨fate_shared_cons _ _ _ (Int.not_le.1 hs1) ih1, fun b hb => ?_⟩
            rcases List.mem_cons.1 hb with hb | hb
            · rw [hb]; exact sublist_second fd _ rfl
            · exact ih2 b hb
        · rw [if_neg h1]
          refine ⟨ih1, fun b hb => ?_⟩
          rcases List.mem_cons.1 hb with hb | hb
          · rw [hb]; exact List.nil_sublist _
          · exact ih2 b hb
    · rw [if_neg hrc]
      by_cases hm : r.rc = -1
      · rw [if_pos hm]
        refine ⟨fate_shared_nil _, fun b hb => ?_⟩
        rw [List.mem_singleton.1 hb]; exact List.nil_sublist _
      · rw [if_neg hm]
        refine ⟨fate_shared_nil _, fun b hb => ?_⟩
        rw [List.mem_singleton.1 hb]; exact List.nil_sublist _

theorem receive_ret_cases (opt : options) (rd_hello : read_all_result input_proxy_hello)
    (rd_caps : read_all_result input_proxy_device_caps) :
    (receive_and_validate_caps opt rd_hello rd_caps).ret = 0 ∨
    (receive_and_validate_caps opt rd_hello rd_caps).ret = -1 ∨
    (receive_and_validate_caps opt rd_hello rd_caps).ret = 1 := by
  unfold receive_and_validate_caps
  dsimp only
  split_ifs <;> simp

theorem forward_result_cases (opt : options) (src dst : Int)
    (rd : read_all_result input_event) (wrc : Int) (P : fwd_result → Prop)
    (hnil : ∀ r : Int, (r = 0 ∨ r = -1 ∨ r = 1) → P ⟨r, []⟩)
    (hwrite : ∀ ev : input_event, P ⟨wrc, [(dst, ev)]⟩) :
    P (validate_and_forward_event opt src dst rd wrc) := by
  unfold validate_and_forward_event write_event
  dsimp only
  repeat' refine ite_fwd P _ _ _ ?_ ?_
  all_goals first
    | exact hwrite _
    | exact hnil _ (Or.inl rfl)
    | exact hnil _ (Or.inr (Or.inl rfl))
    | exact hnil _ (Or.inr (Or.inr rfl))

theorem forward_ret_cases (opt : options) (src dst : Int)
    (rd : read_all_result input_event) (wrc : Int) :
    (validate_and_forward_event opt src dst rd wrc).ret = 0 ∨
    (validate_and_forward_event opt src dst rd wrc).ret = -1 ∨
    (validate_and_forward_event opt src dst rd wrc).ret = 1 ∨
    (validate_and_forward_event opt src dst rd wrc).ret = wrc :=
  forward_result_cases opt src dst rd wrc
    (fun r => r.ret = 0 ∨ r.ret = -1 ∨ r.ret = 1 ∨ r.ret = wrc)
    (fun r hr => by
      rcases hr with h | h | h
      · exact Or.inl h
      · exact Or.inr (Or.inl h)
      · exact Or.inr (Or.inr (Or.inl h)))
    (fun _ => Or.inr (Or.inr (Or.inr rfl)))

theorem forward_ret_nonpos (opt : options) (src dst : Int)
    (rd : read_all_result input_event) (wrc : Int) (hw : wrc = -1 ∨ 0 < wrc)
    (h : (validate_and_forward_event opt src dst rd wrc).ret ≤ 0) :
    (validate_and_forward_event opt src dst rd wrc).ret = 0 ∨
    (validate_and_forward_event opt src dst rd wrc).ret = -1 := by
  rcases forward_ret_cases opt src dst rd wrc with h0 | h1 | h2 | h3
  · exact Or.inl h0
  · exact Or.inr h1
  · rw [h2] at h; exact absurd h (by decide)
  · rcases hw with hw | hw
    · right; rw [h3, hw]
    · rw [h3] at h; omega

theorem process_events_ret_cases (opt : options) (fd : Int) (rounds : List poll_round)
    (hw : write_all_contract rounds) :
    (process_events opt fd rounds).ret = none ∨
    (process_events opt fd rounds).ret = some 0 ∨
    (process_events opt fd rounds).ret = some (-1) := by
  induction rounds with
  | nil => exact Or.inl rfl
  | cons r rest ih =>
    have ih' := ih (fun x hx => hw x (List.mem_cons_of_mem _ hx))
    obtain ⟨hw0, hw1⟩ := hw r (List.mem_cons_self _ _)
    have hsome : ∀ v : Int, (v = 0 ∨ v = -1) →
        ((some v : Option Int) = none ∨ some v = some 0 ∨ some v = some (-1)) := by
      intro v hv
      rcases hv with hv | hv
      · right; left; rw [hv]
      · right; right; rw [hv]
    rw [process_events]
    dsimp only
    by_cases hrc : r.rc > 0
    · rw [if_pos hrc]
      by_cases h0 : r.revents0 ≠ 0
      · rw [if_pos h0]
        by_cases hs0 : (validate_and_forward_event opt 0 fd r.rd0 r.wrc0).ret ≤ 0
        · rw [if_pos hs0]
          exact hsome _ (forward_ret_nonpos _ _ _ _ _ hw0 hs0)
        · rw [if_neg hs0]
          by_cases h1 : r.revents1 ≠ 0
          · rw [if_pos h1]
            by_cases hs1 : (validate_and_forward_event opt fd 1 r.rd1 r.wrc1).ret ≤ 0
            · rw [if_pos hs1]
              exact hsome _ (forward_ret_nonpos _ _ _ _ _ hw1 hs1)
            · rw [if_neg hs1]; exact ih'
          · rw [if_neg h1]; exact ih'
      · rw [if_neg h0]
        by_cases h1 : r.revents1 ≠ 0
        · rw [if_pos h1]
          by_cases hs1 : (validate_and_forward_event opt fd 1 r.rd1 r.wrc1).ret ≤ 0
          · rw [if_pos hs1]
            exact hsome _ (forward_ret_nonpos _ _ _ _ _ hw1 hs1)
          · rw [if_neg hs1]; exact ih'
        · rw [if_neg h1]; exact ih'
    · rw [if_neg hrc]
      by_cases hm : r.rc = -1
      · rw [if_pos hm]; right; right; rfl
      · rw [if_neg hm]; right; left; rfl

/-- C15 (exit status): with `write_all` returning -1 or a positive value, `main` exits
with 0 exactly when option parsing succeeded and either `receive_and_validate_caps`
returned 0, or it returned 1, the device was opened and registered, and `process_events`
returned 0; it exits with 1 exactly when the first phase to report a failure (-1) was
reached; so no failure maps to exit status 0. -/
theorem exit_status (args : List getopt_result)
    (rd_hello : read_all_result input_proxy_hello)
    (rd_caps : read_all_result input_proxy_device_caps) (open_fd : Int)
    (ioctl_rc : ioctl_request → Nat → Int) (dev_wrc : Int) (rounds : List poll_round)
    (hw : write_all_contract rounds) :
    (main args rd_hello rd_caps open_fd ioctl_rc dev_wrc rounds = some 0 ↔
      (parse_options args).ret ≠ -1 ∧
      ((receive_and_validate_caps (parse_options args).opt rd_hello rd_caps).ret = 0 ∨
        ((receive_and_validate_caps (parse_options args).opt rd_hello rd_caps).ret = 1 ∧
          open_fd ≠ -1 ∧
          (register_device
            (receive_and_validate_caps (parse_options args).opt rd_hello rd_caps).opt
            open_fd ioctl_rc dev_wrc).ret ≠ -1 ∧
          (process_events
            (receive_and_validate_caps (parse_options args).opt rd_hello rd_caps).opt
            open_fd rounds).ret = some 0))) ∧
    (main args rd_hello rd_caps open_fd ioctl_rc dev_wrc rounds = some 1 ↔
      (parse_options args).ret = -1 ∨
      ((parse_options args).ret ≠ -1 ∧
        ((receive_and_validate_caps (parse_options args).opt rd_hello rd_caps).ret = -1 ∨
          ((receive_and_validate_caps (parse_options args).opt rd_hello rd_caps).ret = 1 ∧
            (open_fd = -1 ∨
              (open_fd ≠ -1 ∧
                ((register_device
                  (receive_and_validate_caps (parse_options args).opt rd_hello rd_caps).opt
                  open_fd ioctl_rc dev_wrc).ret = -1 ∨
                ((register_device
                  (receive_and_validate_caps (parse_options args).opt rd_hello rd_caps).opt
                  open_fd ioctl_rc dev_wrc).ret ≠ -1 ∧
                  (process_events
                    (receive_and_validate_caps (parse_options args).opt rd_hello
                      rd_caps).opt
                    open_fd rounds).ret = some (-1))))))))) := by
  unfold main
  dsimp only
  by_cases hp : (parse_options args).ret = -1
  · simp [hp]
  · rcases receive_ret_cases (parse_options args).opt rd_hello rd_caps with hr | hr | hr
    · simp [hp, hr]
    · simp [hp, hr]
    · by_cases ho : open_fd = -1
      · simp [hp, hr, ho]
      · by_cases hg : (register_device
            (receive_and_validate_caps (parse_options args).opt rd_hello rd_caps).opt
            open_fd ioctl_rc dev_wrc).ret = -1
        · simp [hp, hr, ho, hg]
        · rcases process_events_ret_cases
            (receive_and_validate_caps (parse_options args).opt rd_hello rd_caps).opt
            open_fd rounds hw with hf | hf | hf
          · simp [hp, hr, ho, hg, hf]
          · simp [hp, hr, ho, hg, hf]
          · simp [hp, hr, ho, hg, hf]

set_option maxRecDepth 100000 in
/-- Witness of C15: a `--tablet` session in which both sides forward one sync event and the
peer then closes its stream exits with status 0. -/
theorem exit_status_witness :
    write_all_contract [round_both_sync, round_peer_eof] ∧
    main [arg_tablet] ⟨1, hello_ok⟩ ⟨1, caps_all_ones⟩ 3 ioctl_ok 1
      [round_both_sync, round_peer_eof] = some 0 :=
  ⟨by unfold write_all_contract; decide,
   (exit_status [arg_tablet] ⟨1, hello_ok⟩ ⟨1, caps_all_ones⟩ 3 ioctl_ok 1
      [round_both_sync, round_peer_eof] (by unfold write_all_contract; decide)).1.2
      ⟨by decide, Or.inr ⟨by decide, by decide, by decide, by decide⟩⟩⟩

end InputProxy
